import Mathlib

/-!
# LCD over I2C (PIC18F4580 + PCF8574): a shallow embedding of `main.c`

The driver of `PIC_I2C_PCF8574.X/main.c` is embedded as functions on an explicit
machine state `Mcu`.

* Named register bits the driver touches (`SSPSTATbits.BF`, `PIR1bits.SSPIF`, ...) are
  boolean fields of `Mcu`.
* The MSSP hardware is an oracle `Hw = Nat → HwFlags`: every evaluation of the condition
  of a busy-wait loop first samples the hardware-driven status bits from the oracle and
  advances the sample counter `now`.  No assumption is made on the oracle, so every
  answer pattern of the bus (ACK/NACK, start or stop detected or not, any latency) is
  covered.
* The collision flags `PIR2bits.BCLIF` and `SSPCON1bits.WCOL`, which the driver never
  waits for, are latched: they belong to the state a function is entered with and only
  the driver changes them.
* A busy-wait loop takes a `fuel` bound on the number of polls; `none` means that the
  loop was still spinning when the fuel ran out.
* What the driver does to the outside world is recorded, in order, in `Mcu.trace`.
-/

namespace LcdI2c

/-! ## Constants (lines 12-15) -/

/-- `#define _XTAL_FREQ 4000000` -/
def _XTAL_FREQ : Nat := 4000000

/-- `#define PCF_W_ADDR 0x40`: the expander's write address, A0..A2 low. -/
def PCF_W_ADDR : Nat := 0x40

/-- `#define I2C_NACK 1` -/
def I2C_NACK : Nat := 1

/-- `#define I2C_ACK 0` -/
def I2C_ACK : Nat := 0

/-! ## Machine state -/

/-- One sample of the status bits that the MSSP hardware drives. -/
structure HwFlags where
  /-- `SSPSTATbits.BF`: buffer full. -/
  BF : Bool
  /-- `SSPSTATbits.R`: transmit in progress. -/
  R : Bool
  /-- `SSPSTATbits.S`: start condition detected last. -/
  S : Bool
  /-- `SSPSTATbits.P`: stop condition detected last. -/
  P : Bool
  /-- `SSPCON2bits.SEN`: start condition in progress. -/
  SEN : Bool
  /-- `SSPCON2bits.PEN`: stop condition in progress. -/
  PEN : Bool
  /-- `SSPCON2bits.ACKSTAT`: acknowledge was not received from the peer. -/
  ACKSTAT : Bool
  /-- `PIR1bits.SSPIF`: transfer complete. -/
  SSPIF : Bool
  deriving DecidableEq, Repr

/-- The hardware oracle: the `t`-th poll of the driver reads the flags `hw t`. -/
abbrev Hw := Nat → HwFlags

/-- What the driver does to the outside world, in program order. -/
inductive Event where
  /-- `I2C_ready` has returned: the readiness wait is over. -/
  | ready
  /-- `SSPCON2bits.SEN = 1`: a start condition is requested. -/
  | start
  /-- `SSPBUF = b`: the byte `b` is loaded into the shift register. -/
  | write (b : Nat)
  /-- `SSPCON2bits.PEN = 1`: a stop condition is requested. -/
  | stop
  /-- `__delay_ms(ms)`. -/
  | delay (ms : Nat)
  deriving DecidableEq, Repr

/-- The registers of the microcontroller that `main.c` reads or writes, the poll counter
and the trace. -/
structure Mcu where
  /-- `PIR2bits.BCLIF`: bus collision flag. -/
  BCLIF : Bool
  /-- `SSPCON1bits.WCOL`: write collision flag. -/
  WCOL : Bool
  BF : Bool
  R : Bool
  S : Bool
  P : Bool
  SEN : Bool
  PEN : Bool
  ACKSTAT : Bool
  SSPIF : Bool
  /-- `SSPBUF`: the shift register's buffer. -/
  SSPBUF : Nat
  /-- `ERROR_L`, that is `LATDbits.LATD0`: the error signal. -/
  ERROR_L : Bool
  /-- `SSPSTATbits.SMP`. -/
  SMP : Bool
  /-- `SSPSTATbits.CKE`. -/
  CKE : Bool
  /-- `SSPCON1` as last stored whole. -/
  SSPCON1 : Nat
  /-- `SSPCON2` as last stored whole. -/
  SSPCON2 : Nat
  /-- `SSPADD`: the baud-rate divisor. -/
  SSPADD : Nat
  /-- Number of polls of the hardware so far. -/
  now : Nat
  /-- Everything done so far, oldest first. -/
  trace : List Event
  deriving DecidableEq, Repr

/-- The state after power-on reset, before `main` runs. -/
def Mcu.reset : Mcu :=
  { BCLIF := false, WCOL := false, BF := false, R := false, S := false, P := false,
    SEN := false, PEN := false, ACKSTAT := false, SSPIF := false, SSPBUF := 0,
    ERROR_L := false, SMP := false, CKE := false, SSPCON1 := 0, SSPCON2 := 0,
    SSPADD := 0, now := 0, trace := [] }

/-- One poll: the hardware-driven flags take the values of the next sample. -/
def tick (hw : Hw) (s : Mcu) : Mcu :=
  { s with BF := (hw s.now).BF, R := (hw s.now).R, S := (hw s.now).S, P := (hw s.now).P,
           SEN := (hw s.now).SEN, PEN := (hw s.now).PEN, ACKSTAT := (hw s.now).ACKSTAT,
           SSPIF := (hw s.now).SSPIF, now := s.now + 1 }

/-- The loop `while (cond);` with an empty body: poll until `cond` reads false. -/
def busy_wait (cond : Mcu → Bool) (hw : Hw) : Nat → Mcu → Option Mcu
  | 0, _ => none
  | fuel + 1, s =>
    let s1 := tick hw s
    if cond s1 then busy_wait cond hw fuel s1 else some s1

/-- Append one event to the trace. -/
def emit (e : Event) (s : Mcu) : Mcu := { s with trace := s.trace ++ [e] }

/-- `__delay_ms(ms)` -/
def delay_ms (ms : Nat) (s : Mcu) : Mcu := emit (.delay ms) s

/-- The bytes loaded into the shift register, in order. -/
def busBytes : List Event → List Nat
  | [] => []
  | .write b :: es => b :: busBytes es
  | _ :: es => busBytes es

/-! ## I2C master engine (lines 54-114) -/

/-- `void I2C_begin(void)`, lines 54-62.  `SSPCON1 = 0x28` and `SSPCON2 = 0x00` store whole
registers, which also clears the bits of them that are fields of their own here. -/
def I2C_begin (s : Mcu) : Mcu :=
  { s with SMP := true, CKE := false,
           SSPCON1 := 0x28, WCOL := false,
           SSPCON2 := 0x00, SEN := false, PEN := false, ACKSTAT := false,
           SSPADD := 9,
           SSPIF := false }

/-- Lines 66-69 of `I2C_ready`: a bus collision or a write collision is cleared. -/
def clear_collision (s : Mcu) : Mcu :=
  if s.BCLIF || s.WCOL then { s with BCLIF := false, WCOL := false } else s

/-- `void I2C_ready(void)`, lines 64-74. -/
def I2C_ready (fuel : Nat) (hw : Hw) (s : Mcu) : Option Mcu :=
  match busy_wait (fun m => m.BF || m.R) hw fuel (clear_collision s) with
  | none => none
  | some s1 => some (emit .ready { s1 with SSPIF := false })

/-- `uint8_t I2C_writeData(uint8_t data)`, lines 90-101. -/
def I2C_writeData (fuel : Nat) (hw : Hw) (data : Nat) (s : Mcu) : Option (Nat × Mcu) :=
  match I2C_ready fuel hw s with
  | none => none
  | some s1 =>
    let s2 := emit (.write data) { s1 with SSPBUF := data }
    match busy_wait (fun m => !m.SSPIF) hw fuel s2 with
    | none => none
    | some s3 =>
      let s4 := { s3 with SSPIF := false }
      if s4.ACKSTAT then some (I2C_NACK, s4) else some (I2C_ACK, s4)

/-- Lines 77-79 of `I2C_beginTransmission`: the readiness wait, the start request and the
wait for the request to complete. -/
def start_request (fuel : Nat) (hw : Hw) (s : Mcu) : Option Mcu :=
  match I2C_ready fuel hw s with
  | none => none
  | some s1 => busy_wait (fun m => m.SEN) hw fuel (emit .start { s1 with SEN := true })

/-- `uint8_t I2C_beginTransmission(uint8_t address)`, lines 76-88. -/
def I2C_beginTransmission (fuel : Nat) (hw : Hw) (address : Nat) (s : Mcu) :
    Option (Nat × Mcu) :=
  match start_request fuel hw s with
  | none => none
  | some s1 =>
    if !s1.S then some (0, { s1 with ERROR_L := true })
    else
      match I2C_writeData fuel hw address s1 with
      | none => none
      | some (_, s2) => some (1, { s2 with ERROR_L := false })

/-- Lines 104-106 of `I2C_endTransmission`: the readiness wait, the stop request and the
wait for the request to complete. -/
def stop_request (fuel : Nat) (hw : Hw) (s : Mcu) : Option Mcu :=
  match I2C_ready fuel hw s with
  | none => none
  | some s1 => busy_wait (fun m => m.PEN) hw fuel (emit .stop { s1 with PEN := true })

/-- `uint8_t I2C_endTransmission(void)`, lines 103-114. -/
def I2C_endTransmission (fuel : Nat) (hw : Hw) (s : Mcu) : Option (Nat × Mcu) :=
  match stop_request fuel hw s with
  | none => none
  | some s1 =>
    if !s1.P then some (0, { s1 with ERROR_L := true })
    else some (1, { s1 with ERROR_L := false })

/-! ## LCD protocol encoder (lines 117-188) -/

/-- The loop `for (int i = 0; i < 4; i++) { I2C_writeData(disp_arr[i]); __delay_ms(20); }`
of `send_to_display`, lines 183-186: `n` iterations are left, the next index is `i`.  The
result of `I2C_writeData` is dropped, as in the source. -/
def send_loop (fuel : Nat) (hw : Hw) (disp_arr : List Nat) : Nat → Nat → Mcu → Option Mcu
  | 0, _, s => some s
  | n + 1, i, s =>
    match I2C_writeData fuel hw (disp_arr.getD i 0) s with
    | none => none
    | some (_, s1) => send_loop fuel hw disp_arr n (i + 1) (delay_ms 20 s1)

/-- `void send_to_display(uint8_t *disp_arr)`, lines 179-188.  The results of
`I2C_beginTransmission` and `I2C_endTransmission` are dropped, as in the source. -/
def send_to_display (fuel : Nat) (hw : Hw) (disp_arr : List Nat) (s : Mcu) : Option Mcu :=
  match I2C_ready fuel hw s with
  | none => none
  | some s1 =>
    match I2C_beginTransmission fuel hw PCF_W_ADDR s1 with
    | none => none
    | some (_, s2) =>
      match send_loop fuel hw disp_arr 4 0 s2 with
      | none => none
      | some s3 =>
        match I2C_endTransmission fuel hw s3 with
        | none => none
        | some (_, s4) => some s4

/-- The array `cmd_arr` that `lcd_cmd` fills, lines 150-159. -/
def lcd_cmd_arr (cmd : Nat) : List Nat :=
  let high_nib := cmd &&& 0xF0
  let low_nib := ((cmd &&& 0x0F) <<< 4) % 256
  [high_nib ||| 0x0C, high_nib ||| 0x08, low_nib ||| 0x0C, low_nib ||| 0x08]

/-- `void lcd_cmd(uint8_t cmd)`, lines 149-162. -/
def lcd_cmd (fuel : Nat) (hw : Hw) (cmd : Nat) (s : Mcu) : Option Mcu :=
  send_to_display fuel hw (lcd_cmd_arr cmd) s

/-- The array `data_arr` that `lcd_print` fills, lines 165-174. -/
def lcd_print_arr (data : Nat) : List Nat :=
  let high_nib := data &&& 0xF0
  let low_nib := ((data &&& 0x0F) <<< 4) % 256
  [high_nib ||| 0x0D, high_nib ||| 0x09, low_nib ||| 0x0D, low_nib ||| 0x09]

/-- `void lcd_print(uint8_t data)`, lines 164-177. -/
def lcd_print (fuel : Nat) (hw : Hw) (data : Nat) (s : Mcu) : Option Mcu :=
  send_to_display fuel hw (lcd_print_arr data) s

/-- `void lcd_init(void)`, lines 117-124. -/
def lcd_init (fuel : Nat) (hw : Hw) (s : Mcu) : Option Mcu :=
  match lcd_cmd fuel hw 0x02 s with
  | none => none
  | some s1 =>
    match lcd_cmd fuel hw 0x28 s1 with
    | none => none
    | some s2 =>
      match lcd_cmd fuel hw 0x01 s2 with
      | none => none
      | some s3 =>
        match lcd_cmd fuel hw 0x0E s3 with
        | none => none
        | some s4 => lcd_cmd fuel hw 0x06 s4

/-- `void lcd_clear(void)`, lines 126-129. -/
def lcd_clear (fuel : Nat) (hw : Hw) (s : Mcu) : Option Mcu :=
  match lcd_cmd fuel hw 0x01 s with
  | none => none
  | some s1 => some (delay_ms 10 s1)

/-- `void lcd_string(char *str)`, lines 131-136.  The argument is the memory from `str`
on, one byte per element; reading past its end is outside the model (`none`). -/
def lcd_string (fuel : Nat) (hw : Hw) : List Nat → Mcu → Option Mcu
  | [], _ => none
  | c :: str, s =>
    if c ≠ 0 then
      match lcd_print fuel hw c s with
      | none => none
      | some s1 => lcd_string fuel hw str s1
    else some s

/-- `void lcd_put_cursor(uint8_t row, uint8_t col)`, lines 138-147: the value of `col`
when `lcd_cmd(col)` is called. -/
def lcd_put_cursor_col (row col : Nat) : Nat :=
  match row with
  | 0 => (col ||| 0x80) % 256
  | 1 => (col ||| 0xC0) % 256
  | _ => col

/-- `void lcd_put_cursor(uint8_t row, uint8_t col)`, lines 138-147. -/
def lcd_put_cursor (fuel : Nat) (hw : Hw) (row col : Nat) (s : Mcu) : Option Mcu :=
  lcd_cmd fuel hw (lcd_put_cursor_col row col) s

/-! ## Responsive hardware -/

/-- The hardware is responsive when each of the four conditions the driver waits for
comes true again and again: the bus goes idle, a start request completes, a transfer
completes, a stop request completes. -/
def Responsive (hw : Hw) : Prop :=
  ∀ t, (∃ d, (hw (t + d)).BF = false ∧ (hw (t + d)).R = false) ∧
       (∃ d, (hw (t + d)).SEN = false) ∧
       (∃ d, (hw (t + d)).SSPIF = true) ∧
       (∃ d, (hw (t + d)).PEN = false)

/-- The trace of `n` rounds of the loop of `send_to_display` from index `i` on: a
readiness wait, the byte, the 20 ms delay. -/
def loop_trace (f : List Nat) : Nat → Nat → List Event
  | 0, _ => []
  | n + 1, i => [.ready, .write (f.getD i 0), .delay 20] ++ loop_trace f n (i + 1)

/-- The trace of one `send_to_display(f)`: the readiness waits, the start request, the
address byte when `addr` is true, the bytes of `f` each followed by the 20 ms delay, and
the stop request. -/
def txn_trace (addr : Bool) (f : List Nat) : List Event :=
  [.ready, .ready, .start] ++ (if addr then [.ready, .write PCF_W_ADDR] else []) ++
  [.ready, .write (f.getD 0 0), .delay 20, .ready, .write (f.getD 1 0), .delay 20,
   .ready, .write (f.getD 2 0), .delay 20, .ready, .write (f.getD 3 0), .delay 20,
   .ready, .stop]

/-- The trace of consecutive transactions, one per frame, the first finished before the
second starts; `addrs` says for each whether its address byte is written. -/
def txns : List Bool → List (List Nat) → List Event
  | a :: addrs, f :: fs => txn_trace a f ++ txns addrs fs
  | _, _ => []

/-- The pin layout of one byte of a nibble-strobe frame: bits 4-7 carry the nibble `nib`,
bit 3 (backlight) is 1, bit 2 (enable) is `en`, bit 1 (read/write) is 0 and bit 0
(register select) is `rs`. -/
def strobe_byte (rs en : Bool) (nib b : Nat) : Prop :=
  b &&& 0xF0 = nib ∧ b.testBit 3 = true ∧ b.testBit 2 = en ∧ b.testBit 1 = false ∧
  b.testBit 0 = rs

instance (rs en : Bool) (nib b : Nat) : Decidable (strobe_byte rs en nib b) := by
  unfold strobe_byte; infer_instance

/-- The layout of the frame of the 8-bit value `v`: four bytes, the high nibble with
enable set and then cleared, the low nibble shifted up with enable set and then cleared. -/
def frame_layout (rs : Bool) (v : Nat) (f : List Nat) : Prop :=
  f.length = 4 ∧
  strobe_byte rs true (v &&& 0xF0) (f.getD 0 0) ∧
  strobe_byte rs false (v &&& 0xF0) (f.getD 1 0) ∧
  strobe_byte rs true ((v <<< 4) &&& 0xF0) (f.getD 2 0) ∧
  strobe_byte rs false ((v <<< 4) &&& 0xF0) (f.getD 3 0)

instance (rs : Bool) (v : Nat) (f : List Nat) : Decidable (frame_layout rs v f) := by
  unfold frame_layout; infer_instance

/-- The master-mode bus clock of the MSSP in Hz for the oscillator frequency `fosc` and the
divisor `sspadd`: FOSC / (4 * (SSPADD + 1)), the formula that the comments of lines 58 and
60 refer to. -/
def i2c_clock (fosc sspadd : Nat) : Nat := fosc / (4 * (sspadd + 1))

/-- The frames on a trace: for every transaction, from a start request to the next stop
request, the bytes written in it, without the address byte `PCF_W_ADDR` when the
transaction begins with it.  The first argument holds the bytes of the transaction that
is open, if one is. -/
def frames_from : Option (List Nat) → List Event → List (List Nat)
  | _, [] => []
  | _, .start :: es => frames_from (some []) es
  | some acc, .write b :: es => frames_from (some (acc ++ [b])) es
  | some acc, .stop :: es =>
    (match acc with
      | a :: rest => if a = PCF_W_ADDR then rest else acc
      | [] => []) :: frames_from none es
  | cur, _ :: es => frames_from cur es

/-- What a frame carries: the register select (bit 0 of byte 0) and the 8-bit value whose
high nibble is in byte 0 and whose low nibble is in byte 2. -/
def frame_value (f : List Nat) : Bool × Nat :=
  ((f.getD 0 0).testBit 0, ((f.getD 0 0) &&& 0xF0) ||| ((f.getD 2 0) >>> 4))

/-- A display with states `D` that executes the frames it is sent, `exec rs v` being what
it does with the value `v` on register select `rs`: its state after the frames of the
trace `t`, from the state `d`. -/
def display_run {D : Type} (exec : Bool → Nat → D → D) (t : List Event) (d : D) : D :=
  (frames_from none t).foldl (fun d f => exec (frame_value f).1 (frame_value f).2 d) d

/-- A hardware that answers every poll at once: bus idle, requests complete, start and
stop detected, transfer complete, and the peer's acknowledge as given (`nack` true means
that the peer does not acknowledge). -/
def hwPrompt (nack : Bool) : Hw := fun _ =>
  { BF := false, R := false, S := true, P := true, SEN := false, PEN := false,
    ACKSTAT := nack, SSPIF := true }

/-- A hardware on which no start condition is ever detected; everything else is prompt
and acknowledged. -/
def hwNoStart : Hw := fun _ =>
  { BF := false, R := false, S := false, P := true, SEN := false, PEN := false,
    ACKSTAT := false, SSPIF := true }

/-- A hardware on which the start condition is detected from the third poll on only, so
that a first start request fails and a second one succeeds; everything else is prompt
and acknowledged. -/
def hwSecondStart : Hw := fun t =>
  { BF := false, R := false, S := decide (2 ≤ t), P := true, SEN := false, PEN := false,
    ACKSTAT := false, SSPIF := true }

/-- The state in which a first `I2C_beginTransmission(0x40)` after reset leaves the
machine on `hwSecondStart`: the start has failed and the error signal is set. -/
def afterFailedStart : Mcu :=
  match I2C_beginTransmission 1 hwSecondStart 0x40 Mcu.reset with
  | some (_, s) => s
  | none => Mcu.reset

/-- A hardware on which no stop condition is ever detected; everything else is prompt
and acknowledged. -/
def hwNoStop : Hw := fun _ =>
  { BF := false, R := false, S := true, P := false, SEN := false, PEN := false,
    ACKSTAT := false, SSPIF := true }

/-! ## Lemmas on the busy-wait loop -/

@[simp] theorem tick_trace (hw : Hw) (s : Mcu) : (tick hw s).trace = s.trace := rfl
@[simp] theorem tick_ERROR_L (hw : Hw) (s : Mcu) : (tick hw s).ERROR_L = s.ERROR_L := rfl
@[simp] theorem tick_BCLIF (hw : Hw) (s : Mcu) : (tick hw s).BCLIF = s.BCLIF := rfl
@[simp] theorem tick_WCOL (hw : Hw) (s : Mcu) : (tick hw s).WCOL = s.WCOL := rfl
@[simp] theorem tick_SSPBUF (hw : Hw) (s : Mcu) : (tick hw s).SSPBUF = s.SSPBUF := rfl
@[simp] theorem tick_now (hw : Hw) (s : Mcu) : (tick hw s).now = s.now + 1 := rfl

/-- A busy-wait that returns has changed nothing but hardware-driven flags and the poll
counter, and its condition reads false in the state it returns. -/
theorem busy_wait_some (cond : Mcu → Bool) (hw : Hw) :
    ∀ (fuel : Nat) (s s' : Mcu), busy_wait cond hw fuel s = some s' →
      s'.trace = s.trace ∧ s'.ERROR_L = s.ERROR_L ∧ s'.BCLIF = s.BCLIF ∧
      s'.WCOL = s.WCOL ∧ s'.SSPBUF = s.SSPBUF ∧ cond s' = false := by
  intro fuel
  induction fuel with
  | zero => intro s s' h; simp [busy_wait] at h
  | succ n ih =>
    intro s s' h
    simp only [busy_wait] at h
    by_cases hc : cond (tick hw s) = true
    · rw [if_pos hc] at h
      have := ih _ _ h
      simpa using this
    · rw [if_neg hc] at h
      cases h
      simpa using hc

/-- More fuel does not change what a busy-wait returns. -/
theorem busy_wait_mono (cond : Mcu → Bool) (hw : Hw) :
    ∀ (n m : Nat) (s s' : Mcu), busy_wait cond hw n s = some s' → n ≤ m →
      busy_wait cond hw m s = some s' := by
  intro n
  induction n with
  | zero => intro m s s' h; simp [busy_wait] at h
  | succ n ih =>
    intro m s s' h hle
    obtain ⟨k, rfl⟩ : ∃ k, m = k + 1 := ⟨m - 1, by omega⟩
    simp only [busy_wait] at h ⊢
    by_cases hc : cond (tick hw s) = true
    · rw [if_pos hc] at h ⊢
      exact ih k _ _ h (by omega)
    · rw [if_neg hc] at h ⊢
      exact h

/-- A busy-wait returns as soon as the hardware answers: if the condition, a function `c`
of the sampled flags, reads false `d` polls from now, some fuel is enough. -/
theorem busy_wait_total (cond : Mcu → Bool) (hw : Hw) (c : HwFlags → Bool)
    (hc : ∀ s, cond (tick hw s) = c (hw s.now)) :
    ∀ (d : Nat) (s : Mcu), c (hw (s.now + d)) = false →
      ∃ fuel s', busy_wait cond hw fuel s = some s' := by
  intro d
  induction d with
  | zero =>
    intro s h
    refine ⟨1, tick hw s, ?_⟩
    have : cond (tick hw s) = false := by rw [hc]; simpa using h
    simp [busy_wait, this]
  | succ d ih =>
    intro s h
    by_cases h1 : cond (tick hw s) = true
    · have h2 : c (hw ((tick hw s).now + d)) = false := by
        rw [tick_now]; rw [← h]; congr 2; omega
      obtain ⟨fuel, s', hs⟩ := ih (tick hw s) h2
      exact ⟨fuel + 1, s', by simp [busy_wait, h1, hs]⟩
    · exact ⟨1, tick hw s, by simp [busy_wait, h1]⟩

/-! ## Lemmas on the I2C engine -/

@[simp] theorem emit_trace (e : Event) (s : Mcu) : (emit e s).trace = s.trace ++ [e] := rfl
@[simp] theorem emit_ERROR_L (e : Event) (s : Mcu) : (emit e s).ERROR_L = s.ERROR_L := rfl
@[simp] theorem emit_SSPBUF (e : Event) (s : Mcu) : (emit e s).SSPBUF = s.SSPBUF := rfl
@[simp] theorem emit_SSPIF (e : Event) (s : Mcu) : (emit e s).SSPIF = s.SSPIF := rfl
@[simp] theorem emit_BCLIF (e : Event) (s : Mcu) : (emit e s).BCLIF = s.BCLIF := rfl
@[simp] theorem emit_WCOL (e : Event) (s : Mcu) : (emit e s).WCOL = s.WCOL := rfl
@[simp] theorem emit_now (e : Event) (s : Mcu) : (emit e s).now = s.now := rfl

@[simp] theorem clear_collision_trace (s : Mcu) : (clear_collision s).trace = s.trace := by
  unfold clear_collision; split <;> rfl
@[simp] theorem clear_collision_ERROR_L (s : Mcu) :
    (clear_collision s).ERROR_L = s.ERROR_L := by
  unfold clear_collision; split <;> rfl
@[simp] theorem clear_collision_SSPBUF (s : Mcu) : (clear_collision s).SSPBUF = s.SSPBUF := by
  unfold clear_collision; split <;> rfl
@[simp] theorem clear_collision_now (s : Mcu) : (clear_collision s).now = s.now := by
  unfold clear_collision; split <;> rfl
@[simp] theorem clear_collision_BCLIF (s : Mcu) : (clear_collision s).BCLIF = false := by
  unfold clear_collision; split <;> simp_all
@[simp] theorem clear_collision_WCOL (s : Mcu) : (clear_collision s).WCOL = false := by
  unfold clear_collision; split <;> simp_all

/-- What `I2C_ready` has done when it returns. -/
theorem I2C_ready_some (fuel : Nat) (hw : Hw) (s s' : Mcu)
    (h : I2C_ready fuel hw s = some s') :
    s'.trace = s.trace ++ [.ready] ∧ s'.ERROR_L = s.ERROR_L ∧ s'.SSPBUF = s.SSPBUF ∧
    s'.SSPIF = false ∧ s'.BCLIF = false ∧ s'.WCOL = false := by
  unfold I2C_ready at h
  cases hb : busy_wait (fun m => m.BF || m.R) hw fuel (clear_collision s) with
  | none => simp [hb] at h
  | some s1 =>
    have a := busy_wait_some _ _ _ _ _ hb
    simp only [hb, Option.some.injEq] at h
    subst h
    simp [a.1, a.2.1, a.2.2.1, a.2.2.2.1, a.2.2.2.2.1]

theorem I2C_ready_mono (hw : Hw) (n m : Nat) (s s' : Mcu)
    (h : I2C_ready n hw s = some s') (hle : n ≤ m) : I2C_ready m hw s = some s' := by
  unfold I2C_ready at h ⊢
  cases hb : busy_wait (fun m => m.BF || m.R) hw n (clear_collision s) with
  | none => simp [hb] at h
  | some s1 =>
    rw [busy_wait_mono _ _ _ _ _ _ hb hle]
    simpa [hb] using h

theorem I2C_ready_total (hw : Hw) (hr : Responsive hw) (s : Mcu) :
    ∃ fuel s', I2C_ready fuel hw s = some s' := by
  obtain ⟨d, hd1, hd2⟩ := (hr (clear_collision s).now).1
  obtain ⟨fuel, s2, h2⟩ := busy_wait_total (fun m => m.BF || m.R) hw
    (fun f => f.BF || f.R) (fun _ => rfl) d (clear_collision s)
    (by simp only [clear_collision_now] at hd1 hd2; simp [hd1, hd2])
  exact ⟨fuel, emit .ready { s2 with SSPIF := false }, by simp only [I2C_ready, h2]⟩

/-- What `I2C_writeData` has done when it returns. -/
theorem I2C_writeData_some (fuel : Nat) (hw : Hw) (data : Nat) (s s' : Mcu) (r : Nat)
    (h : I2C_writeData fuel hw data s = some (r, s')) :
    s'.trace = s.trace ++ [.ready, .write data] ∧ s'.ERROR_L = s.ERROR_L ∧
    s'.SSPBUF = data ∧ s'.SSPIF = false ∧
    r = (if s'.ACKSTAT then I2C_NACK else I2C_ACK) := by
  unfold I2C_writeData at h
  cases h1 : I2C_ready fuel hw s with
  | none => simp [h1] at h
  | some s1 =>
    have a := I2C_ready_some _ _ _ _ h1
    simp only [h1] at h
    cases h3 : busy_wait (fun m => !m.SSPIF) hw fuel
        (emit (.write data) { s1 with SSPBUF := data }) with
    | none => simp [h3] at h
    | some s3 =>
      have b := busy_wait_some _ _ _ _ _ h3
      simp only [emit_trace, emit_ERROR_L, emit_SSPBUF] at b
      simp only [h3] at h
      by_cases hk : s3.ACKSTAT = true
      · simp only [hk, if_true, Option.some.injEq, Prod.mk.injEq] at h
        obtain ⟨rfl, rfl⟩ := h
        simp [b.1, b.2.1, b.2.2.2.2.1, a.1, a.2.1, hk]
      · simp only [hk, Option.some.injEq, Prod.mk.injEq] at h
        obtain ⟨rfl, rfl⟩ := h
        simp [b.1, b.2.1, b.2.2.2.2.1, a.1, a.2.1, hk]

theorem I2C_writeData_mono (hw : Hw) (data n m : Nat) (s : Mcu) (r : Nat × Mcu)
    (h : I2C_writeData n hw data s = some r) (hle : n ≤ m) :
    I2C_writeData m hw data s = some r := by
  unfold I2C_writeData at h ⊢
  cases h1 : I2C_ready n hw s with
  | none => simp [h1] at h
  | some s1 =>
    rw [I2C_ready_mono _ _ _ _ _ h1 hle]
    simp only [h1] at h ⊢
    cases h3 : busy_wait (fun m => !m.SSPIF) hw n
        (emit (.write data) { s1 with SSPBUF := data }) with
    | none => simp [h3] at h
    | some s3 =>
      rw [busy_wait_mono _ _ _ _ _ _ h3 hle]
      simpa [h3] using h

theorem I2C_writeData_total (hw : Hw) (hr : Responsive hw) (data : Nat) (s : Mcu) :
    ∃ fuel r, I2C_writeData fuel hw data s = some r := by
  obtain ⟨n1, s1, h1⟩ := I2C_ready_total hw hr s
  obtain ⟨d, hd⟩ := (hr (emit (.write data) { s1 with SSPBUF := data }).now).2.2.1
  obtain ⟨n2, s3, h3⟩ := busy_wait_total (fun m => !m.SSPIF) hw
    (fun f => !f.SSPIF) (fun _ => rfl) d (emit (.write data) { s1 with SSPBUF := data })
    (by simpa using hd)
  refine ⟨max n1 n2, ?_⟩
  have e1 := I2C_ready_mono _ _ _ _ _ h1 (le_max_left n1 n2)
  have e3 := busy_wait_mono _ _ _ _ _ _ h3 (le_max_right n1 n2)
  simp only [I2C_writeData, e1, e3]
  split <;> exact ⟨_, rfl⟩

/-- What `start_request` has done when it returns. -/
theorem start_request_some (fuel : Nat) (hw : Hw) (s s' : Mcu)
    (h : start_request fuel hw s = some s') :
    s'.trace = s.trace ++ [.ready, .start] ∧ s'.ERROR_L = s.ERROR_L := by
  unfold start_request at h
  cases h1 : I2C_ready fuel hw s with
  | none => simp [h1] at h
  | some s1 =>
    have a := I2C_ready_some _ _ _ _ h1
    simp only [h1] at h
    have b := busy_wait_some _ _ _ _ _ h
    simp only [emit_trace, emit_ERROR_L] at b
    simp [b.1, b.2.1, a.1, a.2.1]

theorem start_request_mono (hw : Hw) (n m : Nat) (s s' : Mcu)
    (h : start_request n hw s = some s') (hle : n ≤ m) :
    start_request m hw s = some s' := by
  unfold start_request at h ⊢
  cases h1 : I2C_ready n hw s with
  | none => simp [h1] at h
  | some s1 =>
    rw [I2C_ready_mono _ _ _ _ _ h1 hle]
    simp only [h1] at h ⊢
    exact busy_wait_mono _ _ _ _ _ _ h hle

theorem start_request_total (hw : Hw) (hr : Responsive hw) (s : Mcu) :
    ∃ fuel s', start_request fuel hw s = some s' := by
  obtain ⟨n1, s1, h1⟩ := I2C_ready_total hw hr s
  obtain ⟨d, hd⟩ := (hr (emit .start { s1 with SEN := true }).now).2.1
  obtain ⟨n2, s2, h2⟩ := busy_wait_total (fun m => m.SEN) hw
    (fun f => f.SEN) (fun _ => rfl) d (emit .start { s1 with SEN := true }) hd
  refine ⟨max n1 n2, s2, ?_⟩
  have e1 := I2C_ready_mono _ _ _ _ _ h1 (le_max_left n1 n2)
  have e2 := busy_wait_mono _ _ _ _ _ _ h2 (le_max_right n1 n2)
  simp only [start_request, e1, e2]

/-- What `I2C_beginTransmission` has done when it returns: either no start condition was
detected when the request completed, or one was and the address byte has been written. -/
theorem I2C_beginTransmission_some (fuel : Nat) (hw : Hw) (address : Nat) (s s' : Mcu)
    (r : Nat) (h : I2C_beginTransmission fuel hw address s = some (r, s')) :
    ∃ s1, start_request fuel hw s = some s1 ∧
      ((s1.S = false ∧ r = 0 ∧ s'.ERROR_L = true ∧
          s'.trace = s.trace ++ [.ready, .start]) ∨
       (s1.S = true ∧ r = 1 ∧ s'.ERROR_L = false ∧
          s'.trace = s.trace ++ [.ready, .start, .ready, .write address])) := by
  unfold I2C_beginTransmission at h
  cases h1 : start_request fuel hw s with
  | none => simp [h1] at h
  | some s1 =>
    have a := start_request_some _ _ _ _ h1
    refine ⟨s1, rfl, ?_⟩
    simp only [h1] at h
    by_cases hS : s1.S = true
    · right
      simp only [hS, Bool.not_true, Bool.false_eq_true, if_false] at h
      cases h2 : I2C_writeData fuel hw address s1 with
      | none => simp [h2] at h
      | some p =>
        obtain ⟨r2, s2⟩ := p
        have b := I2C_writeData_some _ _ _ _ _ _ h2
        simp only [h2, Option.some.injEq, Prod.mk.injEq] at h
        obtain ⟨rfl, rfl⟩ := h
        simp [hS, b.1, a.1]
    · left
      have hS' : s1.S = false := by simpa using hS
      simp only [hS', Bool.not_false, if_true, Option.some.injEq, Prod.mk.injEq] at h
      obtain ⟨rfl, rfl⟩ := h
      simp [hS', a.1]

theorem I2C_beginTransmission_mono (hw : Hw) (address n m : Nat) (s : Mcu) (r : Nat × Mcu)
    (h : I2C_beginTransmission n hw address s = some r) (hle : n ≤ m) :
    I2C_beginTransmission m hw address s = some r := by
  unfold I2C_beginTransmission at h ⊢
  cases h1 : start_request n hw s with
  | none => simp [h1] at h
  | some s1 =>
    rw [start_request_mono _ _ _ _ _ h1 hle]
    simp only [h1] at h ⊢
    by_cases hS : s1.S = true
    · simp only [hS, Bool.not_true, Bool.false_eq_true, if_false] at h ⊢
      cases h2 : I2C_writeData n hw address s1 with
      | none => simp [h2] at h
      | some p =>
        rw [I2C_writeData_mono _ _ _ _ _ _ h2 hle]
        simpa [h2] using h
    · have hS' : s1.S = false := by simpa using hS
      simpa [hS'] using h

theorem I2C_beginTransmission_total (hw : Hw) (hr : Responsive hw) (address : Nat)
    (s : Mcu) : ∃ fuel r, I2C_beginTransmission fuel hw address s = some r := by
  obtain ⟨n1, s1, h1⟩ := start_request_total hw hr s
  obtain ⟨n2, p, h2⟩ := I2C_writeData_total hw hr address s1
  refine ⟨max n1 n2, ?_⟩
  have e1 := start_request_mono _ _ _ _ _ h1 (le_max_left n1 n2)
  have e2 := I2C_writeData_mono _ _ _ _ _ _ h2 (le_max_right n1 n2)
  simp only [I2C_beginTransmission, e1, e2]
  split <;> exact ⟨_, rfl⟩

/-- What `stop_request` has done when it returns. -/
theorem stop_request_some (fuel : Nat) (hw : Hw) (s s' : Mcu)
    (h : stop_request fuel hw s = some s') :
    s'.trace = s.trace ++ [.ready, .stop] ∧ s'.ERROR_L = s.ERROR_L := by
  unfold stop_request at h
  cases h1 : I2C_ready fuel hw s with
  | none => simp [h1] at h
  | some s1 =>
    have a := I2C_ready_some _ _ _ _ h1
    simp only [h1] at h
    have b := busy_wait_some _ _ _ _ _ h
    simp only [emit_trace, emit_ERROR_L] at b
    simp [b.1, b.2.1, a.1, a.2.1]

theorem stop_request_mono (hw : Hw) (n m : Nat) (s s' : Mcu)
    (h : stop_request n hw s = some s') (hle : n ≤ m) :
    stop_request m hw s = some s' := by
  unfold stop_request at h ⊢
  cases h1 : I2C_ready n hw s with
  | none => simp [h1] at h
  | some s1 =>
    rw [I2C_ready_mono _ _ _ _ _ h1 hle]
    simp only [h1] at h ⊢
    exact busy_wait_mono _ _ _ _ _ _ h hle

theorem stop_request_total (hw : Hw) (hr : Responsive hw) (s : Mcu) :
    ∃ fuel s', stop_request fuel hw s = some s' := by
  obtain ⟨n1, s1, h1⟩ := I2C_ready_total hw hr s
  obtain ⟨d, hd⟩ := (hr (emit .stop { s1 with PEN := true }).now).2.2.2
  obtain ⟨n2, s2, h2⟩ := busy_wait_total (fun m => m.PEN) hw
    (fun f => f.PEN) (fun _ => rfl) d (emit .stop { s1 with PEN := true }) hd
  refine ⟨max n1 n2, s2, ?_⟩
  have e1 := I2C_ready_mono _ _ _ _ _ h1 (le_max_left n1 n2)
  have e2 := busy_wait_mono _ _ _ _ _ _ h2 (le_max_right n1 n2)
  simp only [stop_request, e1, e2]

/-- What `I2C_endTransmission` has done when it returns. -/
theorem I2C_endTransmission_some (fuel : Nat) (hw : Hw) (s s' : Mcu) (r : Nat)
    (h : I2C_endTransmission fuel hw s = some (r, s')) :
    ∃ s1, stop_request fuel hw s = some s1 ∧
      s'.trace = s.trace ++ [.ready, .stop] ∧
      ((s1.P = false ∧ r = 0 ∧ s'.ERROR_L = true) ∨
       (s1.P = true ∧ r = 1 ∧ s'.ERROR_L = false)) ∧ s'.P = s1.P := by
  unfold I2C_endTransmission at h
  cases h1 : stop_request fuel hw s with
  | none => simp [h1] at h
  | some s1 =>
    have a := stop_request_some _ _ _ _ h1
    refine ⟨s1, rfl, ?_⟩
    simp only [h1] at h
    by_cases hP : s1.P = true
    · simp only [hP, Bool.not_true, Bool.false_eq_true, if_false, Option.some.injEq,
        Prod.mk.injEq] at h
      obtain ⟨rfl, rfl⟩ := h
      simp [hP, a.1]
    · have hP' : s1.P = false := by simpa using hP
      simp only [hP', Bool.not_false, if_true, Option.some.injEq, Prod.mk.injEq] at h
      obtain ⟨rfl, rfl⟩ := h
      simp [hP', a.1]

theorem I2C_endTransmission_mono (hw : Hw) (n m : Nat) (s : Mcu) (r : Nat × Mcu)
    (h : I2C_endTransmission n hw s = some r) (hle : n ≤ m) :
    I2C_endTransmission m hw s = some r := by
  unfold I2C_endTransmission at h ⊢
  cases h1 : stop_request n hw s with
  | none => simp [h1] at h
  | some s1 =>
    rw [stop_request_mono _ _ _ _ _ h1 hle]
    simpa [h1] using h

theorem I2C_endTransmission_total (hw : Hw) (hr : Responsive hw) (s : Mcu) :
    ∃ fuel r, I2C_endTransmission fuel hw s = some r := by
  obtain ⟨n1, s1, h1⟩ := stop_request_total hw hr s
  refine ⟨n1, ?_⟩
  simp only [I2C_endTransmission, h1]
  split <;> exact ⟨_, rfl⟩

/-! ## Lemmas on the encoder -/

@[simp] theorem delay_ms_trace (ms : Nat) (s : Mcu) :
    (delay_ms ms s).trace = s.trace ++ [.delay ms] := rfl
@[simp] theorem delay_ms_ERROR_L (ms : Nat) (s : Mcu) :
    (delay_ms ms s).ERROR_L = s.ERROR_L := rfl

theorem busBytes_append (a b : List Event) : busBytes (a ++ b) = busBytes a ++ busBytes b := by
  induction a with
  | nil => rfl
  | cons e es ih => cases e <;> simp [busBytes, ih]

/-- What the loop of `send_to_display` has done when it returns. -/
theorem send_loop_some (fuel : Nat) (hw : Hw) (f : List Nat) :
    ∀ (n i : Nat) (s s' : Mcu), send_loop fuel hw f n i s = some s' →
      s'.trace = s.trace ++ loop_trace f n i ∧ s'.ERROR_L = s.ERROR_L := by
  intro n
  induction n with
  | zero =>
    intro i s s' h
    simp only [send_loop, Option.some.injEq] at h
    subst h
    simp [loop_trace]
  | succ n ih =>
    intro i s s' h
    rw [send_loop] at h
    cases h1 : I2C_writeData fuel hw (f.getD i 0) s with
    | none => rw [h1] at h; cases h
    | some p =>
      obtain ⟨r, s1⟩ := p
      have a := I2C_writeData_some _ _ _ _ _ _ h1
      simp only [h1] at h
      have b := ih _ _ _ h
      simp [b.1, b.2, a.1, a.2.1, loop_trace]

theorem send_loop_mono (hw : Hw) (f : List Nat) (k m : Nat) (hle : k ≤ m) :
    ∀ (n i : Nat) (s s' : Mcu), send_loop k hw f n i s = some s' →
      send_loop m hw f n i s = some s' := by
  intro n
  induction n with
  | zero => intro i s s' h; simpa [send_loop] using h
  | succ n ih =>
    intro i s s' h
    rw [send_loop] at h ⊢
    cases h1 : I2C_writeData k hw (f.getD i 0) s with
    | none => rw [h1] at h; cases h
    | some p =>
      rw [I2C_writeData_mono _ _ _ _ _ _ h1 hle]
      simp only [h1] at h ⊢
      exact ih _ _ _ h

theorem send_loop_total (hw : Hw) (hr : Responsive hw) (f : List Nat) :
    ∀ (n i : Nat) (s : Mcu), ∃ fuel s', send_loop fuel hw f n i s = some s' := by
  intro n
  induction n with
  | zero => intro i s; exact ⟨0, s, rfl⟩
  | succ n ih =>
    intro i s
    obtain ⟨n1, p, h1⟩ := I2C_writeData_total hw hr (f.getD i 0) s
    obtain ⟨n2, s', h2⟩ := ih (i + 1) (delay_ms 20 p.2)
    refine ⟨max n1 n2, s', ?_⟩
    have e1 := I2C_writeData_mono _ _ _ _ _ _ h1 (le_max_left n1 n2)
    have e2 := send_loop_mono hw f _ _ (le_max_right n1 n2) _ _ _ _ h2
    simp only [send_loop, e1, e2]

/-- The four steps of a `send_to_display` that returns, and its trace: the address byte
is on the trace exactly when `I2C_beginTransmission` returned 1. -/
theorem send_to_display_some (fuel : Nat) (hw : Hw) (f : List Nat) (s s' : Mcu)
    (h : send_to_display fuel hw f s = some s') :
    ∃ s1 r s2 s3 r', I2C_ready fuel hw s = some s1 ∧
      I2C_beginTransmission fuel hw PCF_W_ADDR s1 = some (r, s2) ∧
      send_loop fuel hw f 4 0 s2 = some s3 ∧
      I2C_endTransmission fuel hw s3 = some (r', s') ∧
      (r = 0 ∨ r = 1) ∧
      s'.trace = s.trace ++ txn_trace (decide (r = 1)) f := by
  unfold send_to_display at h
  cases h1 : I2C_ready fuel hw s with
  | none => simp [h1] at h
  | some s1 =>
    simp only [h1] at h
    cases h2 : I2C_beginTransmission fuel hw PCF_W_ADDR s1 with
    | none => simp [h2] at h
    | some p =>
      obtain ⟨r, s2⟩ := p
      simp only [h2] at h
      cases h3 : send_loop fuel hw f 4 0 s2 with
      | none => simp [h3] at h
      | some s3 =>
        simp only [h3] at h
        cases h4 : I2C_endTransmission fuel hw s3 with
        | none => simp [h4] at h
        | some q =>
          obtain ⟨r', s4⟩ := q
          simp only [h4, Option.some.injEq] at h
          subst h
          refine ⟨s1, r, s2, s3, r', rfl, h2, h3, h4, ?_⟩
          have a := I2C_ready_some _ _ _ _ h1
          obtain ⟨sa, -, hb⟩ := I2C_beginTransmission_some _ _ _ _ _ _ h2
          have c := send_loop_some _ _ _ _ _ _ _ h3
          obtain ⟨sb, -, hd, -, -⟩ := I2C_endTransmission_some _ _ _ _ _ h4
          rcases hb with ⟨-, rfl, -, hb⟩ | ⟨-, rfl, -, hb⟩
          · simp [hd, c.1, hb, a.1, txn_trace, loop_trace]
          · simp [hd, c.1, hb, a.1, txn_trace, loop_trace]

theorem send_to_display_mono (hw : Hw) (f : List Nat) (n m : Nat) (s s' : Mcu)
    (h : send_to_display n hw f s = some s') (hle : n ≤ m) :
    send_to_display m hw f s = some s' := by
  obtain ⟨s1, r, s2, s3, r', h1, h2, h3, h4, -⟩ := send_to_display_some _ _ _ _ _ h
  simp only [send_to_display, I2C_ready_mono _ _ _ _ _ h1 hle,
    I2C_beginTransmission_mono _ _ _ _ _ _ h2 hle, send_loop_mono _ _ _ _ hle _ _ _ _ h3,
    I2C_endTransmission_mono _ _ _ _ _ h4 hle]

theorem send_to_display_total (hw : Hw) (hr : Responsive hw) (f : List Nat) (s : Mcu) :
    ∃ fuel s', send_to_display fuel hw f s = some s' := by
  obtain ⟨n1, s1, h1⟩ := I2C_ready_total hw hr s
  obtain ⟨n2, p, h2⟩ := I2C_beginTransmission_total hw hr PCF_W_ADDR s1
  obtain ⟨n3, s3, h3⟩ := send_loop_total hw hr f 4 0 p.2
  obtain ⟨n4, q, h4⟩ := I2C_endTransmission_total hw hr s3
  refine ⟨max (max n1 n2) (max n3 n4), q.2, ?_⟩
  have e1 := I2C_ready_mono _ _ _ _ _ h1
    (le_trans (le_max_left n1 n2) (le_max_left _ (max n3 n4)))
  have e2 := I2C_beginTransmission_mono _ _ _ _ _ _ h2
    (le_trans (le_max_right n1 n2) (le_max_left _ (max n3 n4)))
  have e3 := send_loop_mono hw f _ _
    (le_trans (le_max_left n3 n4) (le_max_right (max n1 n2) _)) _ _ _ _ h3
  have e4 := I2C_endTransmission_mono _ _ _ _ _ h4
    (le_trans (le_max_right n3 n4) (le_max_right (max n1 n2) _))
  simp only [send_to_display, e1, e2, e3, e4]

theorem responsive_hwPrompt (nack : Bool) : Responsive (hwPrompt nack) := by
  intro t
  exact ⟨⟨0, rfl, rfl⟩, ⟨0, rfl⟩, ⟨0, rfl⟩, ⟨0, rfl⟩⟩

theorem responsive_hwNoStart : Responsive hwNoStart := by
  intro t
  exact ⟨⟨0, rfl, rfl⟩, ⟨0, rfl⟩, ⟨0, rfl⟩, ⟨0, rfl⟩⟩

theorem responsive_hwNoStop : Responsive hwNoStop := by
  intro t
  exact ⟨⟨0, rfl, rfl⟩, ⟨0, rfl⟩, ⟨0, rfl⟩, ⟨0, rfl⟩⟩

set_option maxRecDepth 100000 in
theorem frame_layout_all : ∀ v, v < 256 →
    frame_layout false v (lcd_cmd_arr v) ∧ frame_layout true v (lcd_print_arr v) := by
  decide

/-- One `send_to_display` that returns adds one transaction to the trace. -/
theorem send_to_display_trace (fuel : Nat) (hw : Hw) (f : List Nat) (s s' : Mcu)
    (h : send_to_display fuel hw f s = some s') :
    ∃ a, s'.trace = s.trace ++ txn_trace a f := by
  obtain ⟨s1, r, s2, s3, r', -, -, -, -, -, ht⟩ := send_to_display_some _ _ _ _ _ h
  exact ⟨_, ht⟩

set_option maxRecDepth 100000 in
theorem lcd_put_cursor_col_rows : ∀ col, col < 256 →
    lcd_put_cursor_col 0 col = 0x80 ||| col ∧ lcd_put_cursor_col 1 col = 0xC0 ||| col ∧
    0x80 ||| col < 256 ∧ 0xC0 ||| col < 256 := by
  decide

/-- What `lcd_init` has done when it returns. -/
theorem lcd_init_some (fuel : Nat) (hw : Hw) (s s' : Mcu) (h : lcd_init fuel hw s = some s') :
    ∃ a1 a2 a3 a4 a5, s'.trace = s.trace ++ txns [a1, a2, a3, a4, a5]
      [lcd_cmd_arr 0x02, lcd_cmd_arr 0x28, lcd_cmd_arr 0x01, lcd_cmd_arr 0x0E,
       lcd_cmd_arr 0x06] := by
  unfold lcd_init lcd_cmd at h
  cases h1 : send_to_display fuel hw (lcd_cmd_arr 0x02) s with
  | none => simp [h1] at h
  | some s1 =>
    simp only [h1] at h
    cases h2 : send_to_display fuel hw (lcd_cmd_arr 0x28) s1 with
    | none => simp [h2] at h
    | some s2 =>
      simp only [h2] at h
      cases h3 : send_to_display fuel hw (lcd_cmd_arr 0x01) s2 with
      | none => simp [h3] at h
      | some s3 =>
        simp only [h3] at h
        cases h4 : send_to_display fuel hw (lcd_cmd_arr 0x0E) s3 with
        | none => simp [h4] at h
        | some s4 =>
          simp only [h4] at h
          obtain ⟨a1, e1⟩ := send_to_display_trace _ _ _ _ _ h1
          obtain ⟨a2, e2⟩ := send_to_display_trace _ _ _ _ _ h2
          obtain ⟨a3, e3⟩ := send_to_display_trace _ _ _ _ _ h3
          obtain ⟨a4, e4⟩ := send_to_display_trace _ _ _ _ _ h4
          obtain ⟨a5, e5⟩ := send_to_display_trace _ _ _ _ _ h
          refine ⟨a1, a2, a3, a4, a5, ?_⟩
          rw [e5, e4, e3, e2, e1]
          simp only [txns, List.append_assoc, List.append_nil]

theorem lcd_init_total (hw : Hw) (hr : Responsive hw) (s : Mcu) :
    ∃ fuel s', lcd_init fuel hw s = some s' := by
  obtain ⟨n1, s1, h1⟩ := send_to_display_total hw hr (lcd_cmd_arr 0x02) s
  obtain ⟨n2, s2, h2⟩ := send_to_display_total hw hr (lcd_cmd_arr 0x28) s1
  obtain ⟨n3, s3, h3⟩ := send_to_display_total hw hr (lcd_cmd_arr 0x01) s2
  obtain ⟨n4, s4, h4⟩ := send_to_display_total hw hr (lcd_cmd_arr 0x0E) s3
  obtain ⟨n5, s5, h5⟩ := send_to_display_total hw hr (lcd_cmd_arr 0x06) s4
  refine ⟨n1 + n2 + n3 + n4 + n5, s5, ?_⟩
  have e1 := send_to_display_mono _ _ _ (n1 + n2 + n3 + n4 + n5) _ _ h1 (by omega)
  have e2 := send_to_display_mono _ _ _ (n1 + n2 + n3 + n4 + n5) _ _ h2 (by omega)
  have e3 := send_to_display_mono _ _ _ (n1 + n2 + n3 + n4 + n5) _ _ h3 (by omega)
  have e4 := send_to_display_mono _ _ _ (n1 + n2 + n3 + n4 + n5) _ _ h4 (by omega)
  have e5 := send_to_display_mono _ _ _ (n1 + n2 + n3 + n4 + n5) _ _ h5 (by omega)
  simp only [lcd_init, lcd_cmd, e1, e2, e3, e4, e5]

/-- What `lcd_string` has done when it returns: one transaction per character before the
terminator. -/
theorem lcd_string_some (fuel : Nat) (hw : Hw) (rest : List Nat) :
    ∀ (cs : List Nat), (∀ c ∈ cs, c ≠ 0) → ∀ (s s' : Mcu),
      lcd_string fuel hw (cs ++ 0 :: rest) s = some s' →
      ∃ addrs, addrs.length = cs.length ∧
        s'.trace = s.trace ++ txns addrs (cs.map lcd_print_arr) := by
  intro cs
  induction cs with
  | nil =>
    intro _ s s' h
    simp only [List.nil_append, lcd_string, ne_eq, not_true_eq_false, if_false,
      Option.some.injEq] at h
    subst h
    exact ⟨[], rfl, by simp [txns]⟩
  | cons c cs ih =>
    intro hcs s s' h
    have hc : c ≠ 0 := hcs c (List.mem_cons_self _ _)
    simp only [List.cons_append, lcd_string, hc, ne_eq, not_false_eq_true, if_true,
      lcd_print] at h
    cases h1 : send_to_display fuel hw (lcd_print_arr c) s with
    | none => simp [h1] at h
    | some s1 =>
      simp only [h1] at h
      obtain ⟨a, e1⟩ := send_to_display_trace _ _ _ _ _ h1
      obtain ⟨addrs, hl, e2⟩ := ih (fun x hx => hcs x (List.mem_cons_of_mem _ hx)) _ _ h
      refine ⟨a :: addrs, by simp [hl], ?_⟩
      rw [e2, e1]
      simp only [List.map_cons, txns, List.append_assoc]

theorem lcd_string_mono (hw : Hw) (n m : Nat) (hle : n ≤ m) :
    ∀ (str : List Nat) (s s' : Mcu), lcd_string n hw str s = some s' →
      lcd_string m hw str s = some s' := by
  intro str
  induction str with
  | nil => intro s s' h; simp [lcd_string] at h
  | cons c str ih =>
    intro s s' h
    by_cases hc : c = 0
    · simpa [lcd_string, hc] using h
    · simp only [lcd_string, hc, ne_eq, not_false_eq_true, if_true, lcd_print] at h ⊢
      cases h1 : send_to_display n hw (lcd_print_arr c) s with
      | none => simp [h1] at h
      | some s1 =>
        rw [send_to_display_mono _ _ _ _ _ _ h1 hle]
        simp only [h1] at h ⊢
        exact ih _ _ h

theorem lcd_string_total (hw : Hw) (hr : Responsive hw) (rest : List Nat) :
    ∀ (cs : List Nat), (∀ c ∈ cs, c ≠ 0) → ∀ (s : Mcu),
      ∃ fuel s', lcd_string fuel hw (cs ++ 0 :: rest) s = some s' := by
  intro cs
  induction cs with
  | nil => intro _ s; exact ⟨0, s, by simp [lcd_string]⟩
  | cons c cs ih =>
    intro hcs s
    have hc : c ≠ 0 := hcs c (List.mem_cons_self _ _)
    obtain ⟨n1, s1, h1⟩ := send_to_display_total hw hr (lcd_print_arr c) s
    obtain ⟨n2, s2, h2⟩ := ih (fun x hx => hcs x (List.mem_cons_of_mem _ hx)) s1
    refine ⟨max n1 n2, s2, ?_⟩
    have e1 := send_to_display_mono _ _ _ _ _ _ h1 (le_max_left n1 n2)
    have e2 := lcd_string_mono hw _ _ (le_max_right n1 n2) _ _ _ h2
    simp only [List.cons_append, lcd_string, hc, ne_eq, not_false_eq_true, if_true,
      lcd_print, e1]
    exact e2

theorem responsive_hwSecondStart : Responsive hwSecondStart := by
  intro t
  exact ⟨⟨0, rfl, rfl⟩, ⟨0, rfl⟩, ⟨0, rfl⟩, ⟨0, rfl⟩⟩

/-! ## The claims -/

/-- C1: for every 8-bit value `v`, the frame built by `lcd_cmd(v)` (register select 0)
and the frame built by `lcd_print(v)` (register select 1) have four bytes; bytes 0 and 1
carry `v & 0xF0` in bits 4-7 and bytes 2 and 3 carry `(v << 4) & 0xF0`; in all four bytes
bit 3 is 1, bit 1 is 0 and bit 0 is the register select; bit 2 is 1, 0, 1, 0 across the
bytes 0, 1, 2, 3. -/
theorem frame_bit_layout (v : Nat) (hv : v < 256) :
    ((lcd_cmd_arr v).length = 4 ∧
      strobe_byte false true (v &&& 0xF0) ((lcd_cmd_arr v).getD 0 0) ∧
      strobe_byte false false (v &&& 0xF0) ((lcd_cmd_arr v).getD 1 0) ∧
      strobe_byte false true ((v <<< 4) &&& 0xF0) ((lcd_cmd_arr v).getD 2 0) ∧
      strobe_byte false false ((v <<< 4) &&& 0xF0) ((lcd_cmd_arr v).getD 3 0)) ∧
    ((lcd_print_arr v).length = 4 ∧
      strobe_byte true true (v &&& 0xF0) ((lcd_print_arr v).getD 0 0) ∧
      strobe_byte true false (v &&& 0xF0) ((lcd_print_arr v).getD 1 0) ∧
      strobe_byte true true ((v <<< 4) &&& 0xF0) ((lcd_print_arr v).getD 2 0) ∧
      strobe_byte true false ((v <<< 4) &&& 0xF0) ((lcd_print_arr v).getD 3 0)) :=
  frame_layout_all v hv

/-- Witness of C1 at `v = 0xA5`. -/
theorem frame_bit_layout_witness :
    (0xA5 < 256) ∧ lcd_cmd_arr 0xA5 = [0xAC, 0xA8, 0x5C, 0x58] ∧
    lcd_print_arr 0xA5 = [0xAD, 0xA9, 0x5D, 0x59] ∧
    strobe_byte true true 0x50 0x5D :=
  ⟨by decide, rfl, rfl, (frame_bit_layout 0xA5 (by decide)).2.2.2.2.1⟩

/-- C2: on every hardware (so for every pattern of ACK/NACK answers) and for every frame
`[f0, f1, f2, f3]`, `send_to_display` returns when the hardware is responsive; and when
the start condition is detected as its start request completes (`s2.S`) and the stop
condition is detected as its stop request completes (the flag `P` of the state returned),
it has done exactly this: readiness waits, one start request, the address byte 0x40, the
four frame bytes in order each followed by a 20 ms delay, one stop request.  The bytes
written to the bus are 0x40, f0, f1, f2, f3. -/
theorem send_to_display_one_transaction (hw : Hw) (f0 f1 f2 f3 : Nat) (s : Mcu) :
    (Responsive hw → ∃ fuel s', send_to_display fuel hw [f0, f1, f2, f3] s = some s') ∧
    (∀ fuel s1 s2 s', I2C_ready fuel hw s = some s1 →
      start_request fuel hw s1 = some s2 → s2.S = true →
      send_to_display fuel hw [f0, f1, f2, f3] s = some s' → s'.P = true →
      s'.trace = s.trace ++
        [.ready, .ready, .start, .ready, .write 0x40,
         .ready, .write f0, .delay 20, .ready, .write f1, .delay 20,
         .ready, .write f2, .delay 20, .ready, .write f3, .delay 20,
         .ready, .stop] ∧
      busBytes s'.trace = busBytes s.trace ++ [0x40, f0, f1, f2, f3] ∧
      s'.ERROR_L = false) := by
  refine ⟨fun hr => send_to_display_total hw hr _ s, ?_⟩
  intro fuel s1 s2 s' h1 h2 hS h hP
  obtain ⟨t1, r, t2, t3, r', e1, e2, e3, e4, -, ht⟩ := send_to_display_some _ _ _ _ _ h
  rw [h1] at e1
  cases e1
  obtain ⟨sa, ea, hb⟩ := I2C_beginTransmission_some _ _ _ _ _ _ e2
  rw [h2] at ea
  cases ea
  obtain ⟨sb, -, -, hd, hPeq⟩ := I2C_endTransmission_some _ _ _ _ _ e4
  have hr1 : r = 1 := by
    rcases hb with ⟨hf, -⟩ | ⟨-, hr, -⟩
    · rw [hS] at hf; cases hf
    · exact hr
  subst hr1
  have htr : s'.trace = s.trace ++
        [.ready, .ready, .start, .ready, .write 0x40,
         .ready, .write f0, .delay 20, .ready, .write f1, .delay 20,
         .ready, .write f2, .delay 20, .ready, .write f3, .delay 20,
         .ready, .stop] := by
    rw [ht]; rfl
  refine ⟨htr, ?_, ?_⟩
  · rw [htr, busBytes_append]; rfl
  · rcases hd with ⟨hf, -, -⟩ | ⟨-, -, he⟩
    · rw [hPeq, hf] at hP; cases hP
    · exact he

/-- Witness of C2: a peer that answers NACK to every byte, the frame of the character 'A'. -/
theorem send_to_display_one_transaction_witness :
    Responsive (hwPrompt true) ∧
    (∃ fuel s', send_to_display fuel (hwPrompt true) [0x4D, 0x49, 0x1D, 0x19] Mcu.reset
      = some s') ∧
    ∃ s', send_to_display 1 (hwPrompt true) [0x4D, 0x49, 0x1D, 0x19] Mcu.reset = some s' ∧
      s'.P = true ∧ s'.ACKSTAT = true ∧
      s'.trace =
        [.ready, .ready, .start, .ready, .write 0x40,
         .ready, .write 0x4D, .delay 20, .ready, .write 0x49, .delay 20,
         .ready, .write 0x1D, .delay 20, .ready, .write 0x19, .delay 20,
         .ready, .stop] :=
  ⟨responsive_hwPrompt true,
   (send_to_display_one_transaction (hwPrompt true) 0x4D 0x49 0x1D 0x19 Mcu.reset).1
     (responsive_hwPrompt true),
   _, rfl, rfl, rfl,
   ((send_to_display_one_transaction (hwPrompt true) 0x4D 0x49 0x1D 0x19 Mcu.reset).2
     1 _ _ _ rfl rfl rfl rfl rfl).1⟩

/-- C3: for every 8-bit `col`, `lcd_put_cursor(0, col)` is exactly `lcd_cmd(0x80 | col)` and
`lcd_put_cursor(1, col)` is exactly `lcd_cmd(0xC0 | col)`; each returns on responsive
hardware and adds exactly one transaction to the trace, carrying the command frame
(register select 0) of that byte; `lcd_put_cursor(0, 5)` issues 0x85 and
`lcd_put_cursor(1, 3)` issues 0xC3. -/
theorem lcd_put_cursor_command (hw : Hw) (col : Nat) (hcol : col < 256) (s : Mcu) :
    (∀ fuel, lcd_put_cursor fuel hw 0 col s = lcd_cmd fuel hw (0x80 ||| col) s) ∧
    (∀ fuel, lcd_put_cursor fuel hw 1 col s = lcd_cmd fuel hw (0xC0 ||| col) s) ∧
    (Responsive hw → (∃ fuel s', lcd_put_cursor fuel hw 0 col s = some s') ∧
      (∃ fuel s', lcd_put_cursor fuel hw 1 col s = some s')) ∧
    (∀ fuel s', lcd_put_cursor fuel hw 0 col s = some s' →
      ∃ a, s'.trace = s.trace ++ txn_trace a (lcd_cmd_arr (0x80 ||| col))) ∧
    (∀ fuel s', lcd_put_cursor fuel hw 1 col s = some s' →
      ∃ a, s'.trace = s.trace ++ txn_trace a (lcd_cmd_arr (0xC0 ||| col))) ∧
    frame_layout false (0x80 ||| col) (lcd_cmd_arr (0x80 ||| col)) ∧
    frame_layout false (0xC0 ||| col) (lcd_cmd_arr (0xC0 ||| col)) ∧
    (∀ fuel, lcd_put_cursor fuel hw 0 5 s = lcd_cmd fuel hw 0x85 s) ∧
    (∀ fuel, lcd_put_cursor fuel hw 1 3 s = lcd_cmd fuel hw 0xC3 s) := by
  obtain ⟨h0, h1, b0, b1⟩ := lcd_put_cursor_col_rows col hcol
  have e0 : ∀ fuel, lcd_put_cursor fuel hw 0 col s = lcd_cmd fuel hw (0x80 ||| col) s := by
    intro fuel; simp only [lcd_put_cursor, h0]
  have e1 : ∀ fuel, lcd_put_cursor fuel hw 1 col s = lcd_cmd fuel hw (0xC0 ||| col) s := by
    intro fuel; simp only [lcd_put_cursor, h1]
  refine ⟨e0, e1, ?_, ?_, ?_, (frame_layout_all _ b0).1, (frame_layout_all _ b1).1,
    fun _ => rfl, fun _ => rfl⟩
  · intro hr
    obtain ⟨n0, t0, k0⟩ := send_to_display_total hw hr (lcd_cmd_arr (0x80 ||| col)) s
    obtain ⟨n1, t1, k1⟩ := send_to_display_total hw hr (lcd_cmd_arr (0xC0 ||| col)) s
    exact ⟨⟨n0, t0, by rw [e0]; exact k0⟩, ⟨n1, t1, by rw [e1]; exact k1⟩⟩
  · intro fuel s' h
    rw [e0] at h
    exact send_to_display_trace _ _ _ _ _ h
  · intro fuel s' h
    rw [e1] at h
    exact send_to_display_trace _ _ _ _ _ h

/-- Witness of C3 at `col = 5`, on hardware that answers at once. -/
theorem lcd_put_cursor_command_witness :
    (5 < 256) ∧ lcd_cmd_arr 0x85 = [0x8C, 0x88, 0x5C, 0x58] ∧
    (lcd_put_cursor 1 (hwPrompt false) 0 5 Mcu.reset).map Mcu.trace =
      some (txn_trace true [0x8C, 0x88, 0x5C, 0x58]) ∧
    lcd_put_cursor 1 (hwPrompt false) 1 5 Mcu.reset =
      lcd_cmd 1 (hwPrompt false) (0xC0 ||| 5) Mcu.reset :=
  ⟨by decide, rfl, rfl,
   (lcd_put_cursor_command (hwPrompt false) 5 (by decide) Mcu.reset).2.1 1⟩

/-- C4: for a string of the characters `cs`, none of them NUL, followed by the terminator
and by anything (`rest`), `lcd_string` returns on responsive hardware, and it has then
added to the trace exactly one transaction per character, in order and one after the
other, each carrying the character frame (register select 1) of its character; nothing
is sent for the terminator or for `rest`.  For "AB" these are the frame of 'A' and then
the frame of 'B'. -/
theorem lcd_string_frames (hw : Hw) (cs : List Nat) (hcs : ∀ c ∈ cs, c ≠ 0)
    (rest : List Nat) (s : Mcu) :
    (Responsive hw → ∃ fuel s', lcd_string fuel hw (cs ++ 0 :: rest) s = some s') ∧
    (∀ fuel s', lcd_string fuel hw (cs ++ 0 :: rest) s = some s' →
      ∃ addrs, addrs.length = cs.length ∧
        s'.trace = s.trace ++ txns addrs (cs.map lcd_print_arr)) ∧
    (∀ fuel s', lcd_string fuel hw (0x41 :: 0x42 :: 0 :: rest) s = some s' →
      ∃ a b, s'.trace = s.trace ++ (txn_trace a (lcd_print_arr 0x41) ++
        txn_trace b (lcd_print_arr 0x42))) := by
  refine ⟨fun hr => lcd_string_total hw hr rest cs hcs s,
    fun fuel s' h => lcd_string_some fuel hw rest cs hcs s s' h, ?_⟩
  intro fuel s' h
  obtain ⟨addrs, hl, ht⟩ := lcd_string_some fuel hw rest [0x41, 0x42] (by decide) s s' h
  match addrs, hl with
  | [a, b], _ => exact ⟨a, b, by rw [ht]; simp [txns]⟩

/-- Witness of C4: the string "AB" with the byte 'C' after its terminator. -/
theorem lcd_string_frames_witness :
    (∀ c ∈ [0x41, 0x42], c ≠ 0) ∧
    (lcd_string 1 (hwPrompt false) ([0x41, 0x42] ++ 0 :: [0x43]) Mcu.reset).map Mcu.trace =
      some (txn_trace true [0x4D, 0x49, 0x1D, 0x19] ++
        txn_trace true [0x4D, 0x49, 0x2D, 0x29]) ∧
    (∃ fuel s', lcd_string fuel (hwPrompt false) ([0x41, 0x42] ++ 0 :: [0x43]) Mcu.reset
      = some s') ∧
    ∃ s', lcd_string 1 (hwPrompt false) ([0x41, 0x42] ++ 0 :: [0x43]) Mcu.reset = some s' ∧
      ∃ addrs, addrs.length = [0x41, 0x42].length ∧
        s'.trace = Mcu.reset.trace ++ txns addrs ([0x41, 0x42].map lcd_print_arr) :=
  ⟨by decide, rfl,
   (lcd_string_frames (hwPrompt false) [0x41, 0x42] (by decide) [0x43] Mcu.reset).1
     (responsive_hwPrompt false),
   _, rfl,
   (lcd_string_frames (hwPrompt false) [0x41, 0x42] (by decide) [0x43] Mcu.reset).2.1
     1 _ rfl⟩

/-- C5: `lcd_init` returns on responsive hardware, and whatever the hardware answers
(ACK or NACK, start or stop detected or not) it has then added to the trace exactly five
transactions, carrying the command frames of 0x02, 0x28, 0x01, 0x0E and 0x06 in this
order. -/
theorem lcd_init_sequence (hw : Hw) (s : Mcu) :
    (Responsive hw → ∃ fuel s', lcd_init fuel hw s = some s') ∧
    (∀ fuel s', lcd_init fuel hw s = some s' →
      ∃ a1 a2 a3 a4 a5, s'.trace = s.trace ++ txns [a1, a2, a3, a4, a5]
        [lcd_cmd_arr 0x02, lcd_cmd_arr 0x28, lcd_cmd_arr 0x01, lcd_cmd_arr 0x0E,
         lcd_cmd_arr 0x06]) :=
  ⟨fun hr => lcd_init_total hw hr s, fun fuel s' h => lcd_init_some fuel hw s s' h⟩

set_option maxRecDepth 100000 in
/-- Witness of C5: a peer that answers NACK to every byte. -/
theorem lcd_init_sequence_witness :
    (∃ fuel s', lcd_init fuel (hwPrompt true) Mcu.reset = some s') ∧
    (lcd_init 1 (hwPrompt true) Mcu.reset).map (fun m => busBytes m.trace) =
      some [0x40, 0x0C, 0x08, 0x2C, 0x28, 0x40, 0x2C, 0x28, 0x8C, 0x88,
            0x40, 0x0C, 0x08, 0x1C, 0x18, 0x40, 0x0C, 0x08, 0xEC, 0xE8,
            0x40, 0x0C, 0x08, 0x6C, 0x68] ∧
    ∃ s', lcd_init 1 (hwPrompt true) Mcu.reset = some s' ∧
      ∃ a1 a2 a3 a4 a5, s'.trace = Mcu.reset.trace ++ txns [a1, a2, a3, a4, a5]
        [lcd_cmd_arr 0x02, lcd_cmd_arr 0x28, lcd_cmd_arr 0x01, lcd_cmd_arr 0x0E,
         lcd_cmd_arr 0x06] :=
  ⟨(lcd_init_sequence (hwPrompt true) Mcu.reset).1 (responsive_hwPrompt true), rfl,
   _, rfl, (lcd_init_sequence (hwPrompt true) Mcu.reset).2 1 _ rfl⟩

/-- C6: for every address and every prior state (so every prior value of the error
signal), `I2C_beginTransmission` returns on responsive hardware; it returns 0 exactly when
the start condition is not detected as the start request completes; then the error signal
is 1 and no byte has been written to the bus; otherwise it returns 1, the error signal is
0 and exactly the address byte has been written to the bus. -/
theorem I2C_beginTransmission_contract (hw : Hw) (address : Nat) (s : Mcu) :
    (Responsive hw → ∃ fuel r s', I2C_beginTransmission fuel hw address s = some (r, s')) ∧
    (∀ fuel r s', I2C_beginTransmission fuel hw address s = some (r, s') →
      ∃ s1, start_request fuel hw s = some s1 ∧
        (r = 0 ↔ s1.S = false) ∧
        (s1.S = false → s'.ERROR_L = true ∧ busBytes s'.trace = busBytes s.trace) ∧
        (s1.S = true → r = 1 ∧ s'.ERROR_L = false ∧
          busBytes s'.trace = busBytes s.trace ++ [address])) := by
  constructor
  · intro hr
    obtain ⟨fuel, p, h⟩ := I2C_beginTransmission_total hw hr address s
    exact ⟨fuel, p.1, p.2, h⟩
  · intro fuel r s' h
    obtain ⟨s1, h1, hb⟩ := I2C_beginTransmission_some _ _ _ _ _ _ h
    refine ⟨s1, h1, ?_⟩
    rcases hb with ⟨hS, rfl, he, ht⟩ | ⟨hS, rfl, he, ht⟩
    · refine ⟨by simp [hS], fun _ => ⟨he, ?_⟩, fun h' => ?_⟩
      · rw [ht, busBytes_append]; simp [busBytes]
      · rw [hS] at h'; cases h'
    · refine ⟨by simp [hS], fun h' => ?_, fun _ => ⟨rfl, he, ?_⟩⟩
      · rw [hS] at h'; cases h'
      · rw [ht, busBytes_append]; simp [busBytes]

/-- Witness of C6: a failed start with the error signal clear before, and a successful
start with the error signal set before. -/
theorem I2C_beginTransmission_contract_witness :
    (∃ fuel r s', I2C_beginTransmission fuel hwNoStart 0x40 Mcu.reset = some (r, s')) ∧
    (∃ s1 s', start_request 1 hwNoStart Mcu.reset = some s1 ∧ s1.S = false ∧
      I2C_beginTransmission 1 hwNoStart 0x40 Mcu.reset = some (0, s') ∧
      s'.ERROR_L = true ∧ busBytes s'.trace = []) ∧
    (∃ s1 s', start_request 1 (hwPrompt false) { Mcu.reset with ERROR_L := true } = some s1 ∧
      s1.S = true ∧
      I2C_beginTransmission 1 (hwPrompt false) 0x40 { Mcu.reset with ERROR_L := true }
        = some (1, s') ∧
      s'.ERROR_L = false ∧ busBytes s'.trace = [0x40]) :=
  ⟨(I2C_beginTransmission_contract hwNoStart 0x40 Mcu.reset).1 responsive_hwNoStart,
   ⟨_, _, rfl, rfl, rfl, rfl, rfl⟩,
   ⟨_, _, rfl, rfl, rfl, rfl, rfl⟩⟩

/-- C7: for every prior state (so every prior value of the error signal),
`I2C_endTransmission` returns on responsive hardware; when the stop condition is not
detected as the stop request completes it returns 0 and the error signal is 1, when it is
detected it returns 1 and the error signal is 0; in both cases it has written no byte to
the bus. -/
theorem I2C_endTransmission_contract (hw : Hw) (s : Mcu) :
    (Responsive hw → ∃ fuel r s', I2C_endTransmission fuel hw s = some (r, s')) ∧
    (∀ fuel r s', I2C_endTransmission fuel hw s = some (r, s') →
      ∃ s1, stop_request fuel hw s = some s1 ∧
        (s1.P = false → r = 0 ∧ s'.ERROR_L = true) ∧
        (s1.P = true → r = 1 ∧ s'.ERROR_L = false) ∧
        s'.trace = s.trace ++ [.ready, .stop] ∧
        busBytes s'.trace = busBytes s.trace) := by
  constructor
  · intro hr
    obtain ⟨fuel, p, h⟩ := I2C_endTransmission_total hw hr s
    exact ⟨fuel, p.1, p.2, h⟩
  · intro fuel r s' h
    obtain ⟨s1, h1, ht, hb, -⟩ := I2C_endTransmission_some _ _ _ _ _ h
    refine ⟨s1, h1, ?_, ?_, ht, ?_⟩
    · intro hP
      rcases hb with ⟨-, hr, he⟩ | ⟨hP', -, -⟩
      · exact ⟨hr, he⟩
      · rw [hP] at hP'; cases hP'
    · intro hP
      rcases hb with ⟨hP', -, -⟩ | ⟨-, hr, he⟩
      · rw [hP] at hP'; cases hP'
      · exact ⟨hr, he⟩
    · rw [ht, busBytes_append]; simp [busBytes]

/-- Witness of C7: a missing stop condition with the error signal clear before, and a
detected one with the error signal set before. -/
theorem I2C_endTransmission_contract_witness :
    (∃ fuel r s', I2C_endTransmission fuel hwNoStop Mcu.reset = some (r, s')) ∧
    (∃ s', I2C_endTransmission 1 hwNoStop Mcu.reset = some (0, s') ∧
      s'.ERROR_L = true ∧ busBytes s'.trace = []) ∧
    (∃ s', I2C_endTransmission 1 (hwPrompt false) { Mcu.reset with ERROR_L := true }
        = some (1, s') ∧ s'.ERROR_L = false ∧ busBytes s'.trace = []) :=
  ⟨(I2C_endTransmission_contract hwNoStop Mcu.reset).1 responsive_hwNoStop,
   ⟨_, rfl, rfl, rfl⟩, ⟨_, rfl, rfl, rfl⟩⟩

/-- C8, as amended: `send_to_display` does not look at the result of
`I2C_beginTransmission`.  It returns on responsive hardware; when
`I2C_beginTransmission` has returned failure (no start condition detected), the address
byte is not written, and the four frame bytes are still written to the bus, in order and
each followed by the 20 ms delay, before the stop request. -/
theorem send_to_display_after_failed_start (hw : Hw) (f0 f1 f2 f3 : Nat) (s : Mcu) :
    (Responsive hw → ∃ fuel s', send_to_display fuel hw [f0, f1, f2, f3] s = some s') ∧
    (∀ fuel s1 s2 s', I2C_ready fuel hw s = some s1 →
      I2C_beginTransmission fuel hw PCF_W_ADDR s1 = some (0, s2) →
      send_to_display fuel hw [f0, f1, f2, f3] s = some s' →
      s'.trace = s.trace ++
        [.ready, .ready, .start,
         .ready, .write f0, .delay 20, .ready, .write f1, .delay 20,
         .ready, .write f2, .delay 20, .ready, .write f3, .delay 20,
         .ready, .stop] ∧
      busBytes s'.trace = busBytes s.trace ++ [f0, f1, f2, f3]) := by
  refine ⟨fun hr => send_to_display_total hw hr _ s, ?_⟩
  intro fuel s1 s2 s' h1 h2 h
  obtain ⟨t1, r, t2, t3, r', e1, e2, -, -, -, ht⟩ := send_to_display_some _ _ _ _ _ h
  rw [h1] at e1
  cases e1
  rw [h2] at e2
  cases e2
  have htr : s'.trace = s.trace ++
        [.ready, .ready, .start,
         .ready, .write f0, .delay 20, .ready, .write f1, .delay 20,
         .ready, .write f2, .delay 20, .ready, .write f3, .delay 20,
         .ready, .stop] := by
    rw [ht]; rfl
  refine ⟨htr, ?_⟩
  rw [htr, busBytes_append]; rfl

/-- Witness of the amended C8: the frame of 'A' on a bus where no start condition is
detected. -/
theorem send_to_display_after_failed_start_witness :
    (∃ fuel s', send_to_display fuel hwNoStart [0x4D, 0x49, 0x1D, 0x19] Mcu.reset
      = some s') ∧
    ∃ s', send_to_display 1 hwNoStart [0x4D, 0x49, 0x1D, 0x19] Mcu.reset = some s' ∧
      busBytes s'.trace = busBytes Mcu.reset.trace ++ [0x4D, 0x49, 0x1D, 0x19] :=
  ⟨(send_to_display_after_failed_start hwNoStart 0x4D 0x49 0x1D 0x19 Mcu.reset).1
     responsive_hwNoStart,
   _, rfl,
   ((send_to_display_after_failed_start hwNoStart 0x4D 0x49 0x1D 0x19 Mcu.reset).2
     1 _ _ _ rfl rfl rfl).2⟩

/-- C8 as stated fails: on a bus where no start condition is detected,
`I2C_beginTransmission` returns failure inside `send_to_display`, and `send_to_display`
still writes the four bytes of the frame to the bus. -/
theorem send_to_display_writes_after_failed_start :
    ∃ s1 s2 s', I2C_ready 1 hwNoStart Mcu.reset = some s1 ∧
      I2C_beginTransmission 1 hwNoStart PCF_W_ADDR s1 = some (0, s2) ∧
      send_to_display 1 hwNoStart [0x4D, 0x49, 0x1D, 0x19] Mcu.reset = some s' ∧
      busBytes Mcu.reset.trace = [] ∧
      busBytes s'.trace = [0x4D, 0x49, 0x1D, 0x19] :=
  ⟨_, _, _, rfl, rfl, rfl, rfl, rfl⟩

/-- C9: for every byte, `I2C_writeData` returns on responsive hardware; it has then
loaded exactly that byte into the shift register (one bus write), the transfer-complete
flag is clear, the result is `I2C_NACK` (1) exactly when the acknowledge-status bit is
set after the transfer and `I2C_ACK` (0) otherwise, and the error signal is unchanged. -/
theorem I2C_writeData_contract (hw : Hw) (data : Nat) (s : Mcu) :
    (Responsive hw → ∃ fuel r s', I2C_writeData fuel hw data s = some (r, s')) ∧
    (∀ fuel r s', I2C_writeData fuel hw data s = some (r, s') →
      s'.SSPBUF = data ∧
      s'.trace = s.trace ++ [.ready, .write data] ∧
      busBytes s'.trace = busBytes s.trace ++ [data] ∧
      s'.SSPIF = false ∧
      (r = I2C_NACK ↔ s'.ACKSTAT = true) ∧
      (r = I2C_ACK ↔ s'.ACKSTAT = false) ∧
      s'.ERROR_L = s.ERROR_L) := by
  constructor
  · intro hr
    obtain ⟨fuel, p, h⟩ := I2C_writeData_total hw hr data s
    exact ⟨fuel, p.1, p.2, h⟩
  · intro fuel r s' h
    obtain ⟨ht, he, hb, hi, hr⟩ := I2C_writeData_some _ _ _ _ _ _ h
    refine ⟨hb, ht, ?_, hi, ?_, ?_, he⟩
    · rw [ht, busBytes_append]; simp [busBytes]
    · cases hk : s'.ACKSTAT <;> simp [hr, hk, I2C_NACK, I2C_ACK]
    · cases hk : s'.ACKSTAT <;> simp [hr, hk, I2C_NACK, I2C_ACK]

/-- Witness of C9: the byte 0x4D to a peer that does not acknowledge, with the error
signal set before. -/
theorem I2C_writeData_contract_witness :
    (∃ fuel r s', I2C_writeData fuel (hwPrompt true) 0x4D { Mcu.reset with ERROR_L := true }
      = some (r, s')) ∧
    ∃ s', I2C_writeData 1 (hwPrompt true) 0x4D { Mcu.reset with ERROR_L := true }
        = some (1, s') ∧
      s'.SSPBUF = 0x4D ∧ s'.ACKSTAT = true ∧ s'.ERROR_L = true :=
  ⟨(I2C_writeData_contract (hwPrompt true) 0x4D { Mcu.reset with ERROR_L := true }).1
     (responsive_hwPrompt true),
   _, rfl,
   ((I2C_writeData_contract (hwPrompt true) 0x4D { Mcu.reset with ERROR_L := true }).2
     1 1 _ rfl).1,
   rfl, rfl⟩

/-- C10: for every address and every prior state (so every prior value of the error
signal, also the one left by a failed start), `I2C_beginTransmission(address)` followed at
once by `I2C_endTransmission()` returns on responsive hardware; when the start condition
is detected as the start request completes and the stop condition is detected as the stop
request completes, both calls return 1 and the error signal is 0 afterwards. -/
theorem begin_then_end_clears_error (hw : Hw) (address : Nat) (s : Mcu) :
    (Responsive hw → ∃ fuel r1 s1 r2 s2,
      I2C_beginTransmission fuel hw address s = some (r1, s1) ∧
      I2C_endTransmission fuel hw s1 = some (r2, s2)) ∧
    (∀ fuel sa r1 s1 sb r2 s2,
      start_request fuel hw s = some sa → sa.S = true →
      I2C_beginTransmission fuel hw address s = some (r1, s1) →
      stop_request fuel hw s1 = some sb → sb.P = true →
      I2C_endTransmission fuel hw s1 = some (r2, s2) →
      r1 = 1 ∧ r2 = 1 ∧ s2.ERROR_L = false) ∧
    (∀ fuel a0 s0, I2C_beginTransmission fuel hw a0 s0 = some (0, s) → s.ERROR_L = true) := by
  refine ⟨?_, ?_, ?_⟩
  · intro hr
    obtain ⟨n1, p, h1⟩ := I2C_beginTransmission_total hw hr address s
    obtain ⟨n2, q, h2⟩ := I2C_endTransmission_total hw hr p.2
    exact ⟨max n1 n2, p.1, p.2, q.1, q.2,
      I2C_beginTransmission_mono _ _ _ _ _ _ h1 (le_max_left n1 n2),
      I2C_endTransmission_mono _ _ _ _ _ h2 (le_max_right n1 n2)⟩
  · intro fuel sa r1 s1 sb r2 s2 ha hS hb hsb hP he
    obtain ⟨ta, ea, hb'⟩ := I2C_beginTransmission_some _ _ _ _ _ _ hb
    rw [ha] at ea
    cases ea
    obtain ⟨tb, eb, -, he', -⟩ := I2C_endTransmission_some _ _ _ _ _ he
    rw [hsb] at eb
    cases eb
    have hr1 : r1 = 1 := by
      rcases hb' with ⟨hf, -⟩ | ⟨-, hr, -⟩
      · rw [hS] at hf; cases hf
      · exact hr
    rcases he' with ⟨hf, -, -⟩ | ⟨-, hr2, hE⟩
    · rw [hP] at hf; cases hf
    · exact ⟨hr1, hr2, hE⟩
  · intro fuel a0 s0 h
    obtain ⟨t, -, hb⟩ := I2C_beginTransmission_some _ _ _ _ _ _ h
    rcases hb with ⟨-, -, hE, -⟩ | ⟨-, h01, -⟩
    · exact hE
    · cases h01

/-- Witness of C10: a first start request fails and sets the error signal; the second
one succeeds, the stop follows at once, and the error signal is clear. -/
theorem begin_then_end_clears_error_witness :
    I2C_beginTransmission 1 hwSecondStart 0x40 Mcu.reset = some (0, afterFailedStart) ∧
    afterFailedStart.ERROR_L = true ∧
    (∃ s1 s2,
      I2C_beginTransmission 1 hwSecondStart 0x40 afterFailedStart = some (1, s1) ∧
      I2C_endTransmission 1 hwSecondStart s1 = some (1, s2) ∧
      s2.ERROR_L = false) ∧
    ∃ fuel r1 t1 r2 t2,
      I2C_beginTransmission fuel hwSecondStart 0x40 afterFailedStart = some (r1, t1) ∧
      I2C_endTransmission fuel hwSecondStart t1 = some (r2, t2) :=
  ⟨rfl, rfl,
   ⟨_, _, rfl, rfl,
    ((begin_then_end_clears_error hwSecondStart 0x40 afterFailedStart).2.1
      1 _ 1 _ _ 1 _ rfl rfl rfl rfl rfl rfl).2.2⟩,
   (begin_then_end_clears_error hwSecondStart 0x40 afterFailedStart).1
     responsive_hwSecondStart⟩

/-! ## Further lemmas -/

/-- What `lcd_clear` has done when it returns. -/
theorem lcd_clear_some (fuel : Nat) (hw : Hw) (s s' : Mcu)
    (h : lcd_clear fuel hw s = some s') :
    ∃ a, s'.trace = s.trace ++ (txn_trace a (lcd_cmd_arr 0x01) ++ [.delay 10]) := by
  unfold lcd_clear lcd_cmd at h
  cases h1 : send_to_display fuel hw (lcd_cmd_arr 0x01) s with
  | none => simp [h1] at h
  | some s1 =>
    simp only [h1, Option.some.injEq] at h
    subst h
    obtain ⟨a, e⟩ := send_to_display_trace _ _ _ _ _ h1
    exact ⟨a, by simp [e]⟩

theorem lcd_clear_mono (hw : Hw) (n m : Nat) (s s' : Mcu)
    (h : lcd_clear n hw s = some s') (hle : n ≤ m) : lcd_clear m hw s = some s' := by
  unfold lcd_clear lcd_cmd at h ⊢
  cases h1 : send_to_display n hw (lcd_cmd_arr 0x01) s with
  | none => simp [h1] at h
  | some s1 =>
    rw [send_to_display_mono _ _ _ _ _ _ h1 hle]
    simpa [h1] using h

theorem lcd_clear_total (hw : Hw) (hr : Responsive hw) (s : Mcu) :
    ∃ fuel s', lcd_clear fuel hw s = some s' := by
  obtain ⟨n, s1, h1⟩ := send_to_display_total hw hr (lcd_cmd_arr 0x01) s
  exact ⟨n, delay_ms 10 s1, by simp only [lcd_clear, lcd_cmd, h1]⟩

/-- The frames on the trace of one `lcd_clear` and of two, whether or not the address
bytes were written. -/
theorem frames_from_clear (a1 a2 : Bool) :
    frames_from none (txn_trace a1 (lcd_cmd_arr 0x01) ++ [.delay 10]) = [lcd_cmd_arr 0x01] ∧
    frames_from none ((txn_trace a1 (lcd_cmd_arr 0x01) ++ [.delay 10]) ++
      (txn_trace a2 (lcd_cmd_arr 0x01) ++ [.delay 10]))
      = [lcd_cmd_arr 0x01, lcd_cmd_arr 0x01] := by
  cases a1 <;> cases a2 <;> exact ⟨rfl, rfl⟩

/-- Lines 66-69 of `I2C_ready` leave both collision flags clear and nothing else changed. -/
theorem clear_collision_eq (s : Mcu) :
    clear_collision s = { s with BCLIF := false, WCOL := false } := by
  unfold clear_collision
  split
  · rfl
  · rename_i h
    have hb : s.BCLIF = false ∧ s.WCOL = false := by simpa using h
    cases s
    simp_all

/-! ## The claims, continued -/

/-- C11: `lcd_clear` called twice in succession returns on responsive hardware; each call
adds to the trace exactly one transaction carrying the command frame of 0x01, followed by
a 10 ms delay; each frame carries the value 0x01 on register select 0; hence on every
display that executes the frames it is sent and on which the command 0x01 is
clear-display (it leads to the state `blank` from every state), the state after the two
calls equals the state after the first, and is `blank`. -/
theorem lcd_clear_twice (hw : Hw) (s : Mcu) :
    (Responsive hw → ∃ fuel s1 s2,
      lcd_clear fuel hw s = some s1 ∧ lcd_clear fuel hw s1 = some s2) ∧
    (∀ fuel s1 s2, lcd_clear fuel hw s = some s1 → lcd_clear fuel hw s1 = some s2 →
      ∃ t1 t2, s1.trace = s.trace ++ t1 ∧ s2.trace = s.trace ++ (t1 ++ t2) ∧
        (∃ a, t1 = txn_trace a (lcd_cmd_arr 0x01) ++ [.delay 10]) ∧
        (∃ a, t2 = txn_trace a (lcd_cmd_arr 0x01) ++ [.delay 10]) ∧
        (frames_from none t1).map frame_value = [(false, 0x01)] ∧
        (frames_from none (t1 ++ t2)).map frame_value = [(false, 0x01), (false, 0x01)] ∧
        ∀ (D : Type) (exec : Bool → Nat → D → D) (blank : D),
          (∀ d, exec false 0x01 d = blank) →
          ∀ d, display_run exec (t1 ++ t2) d = display_run exec t1 d ∧
            display_run exec t1 d = blank) := by
  constructor
  · intro hr
    obtain ⟨n1, s1, h1⟩ := lcd_clear_total hw hr s
    obtain ⟨n2, s2, h2⟩ := lcd_clear_total hw hr s1
    exact ⟨max n1 n2, s1, s2, lcd_clear_mono _ _ _ _ _ h1 (le_max_left n1 n2),
      lcd_clear_mono _ _ _ _ _ h2 (le_max_right n1 n2)⟩
  · intro fuel s1 s2 h1 h2
    obtain ⟨a1, e1⟩ := lcd_clear_some _ _ _ _ h1
    obtain ⟨a2, e2⟩ := lcd_clear_some _ _ _ _ h2
    obtain ⟨f1, f2⟩ := frames_from_clear a1 a2
    refine ⟨_, _, e1, ?_, ⟨a1, rfl⟩, ⟨a2, rfl⟩, ?_, ?_, ?_⟩
    · rw [e2, e1, List.append_assoc]
    · rw [f1]; rfl
    · rw [f2]; rfl
    · intro D exec blank hclear d
      have v : frame_value (lcd_cmd_arr 0x01) = (false, 0x01) := rfl
      simp only [display_run, f1, f2, List.foldl_cons, List.foldl_nil, v, hclear, and_self]

/-- Witness of C11: two calls from reset on hardware that answers at once, and a display
whose state is the list of the values it was sent since the last clear. -/
theorem lcd_clear_twice_witness :
    (∃ fuel s1 s2, lcd_clear fuel (hwPrompt false) Mcu.reset = some s1 ∧
      lcd_clear fuel (hwPrompt false) s1 = some s2) ∧
    ∃ s1 s2, lcd_clear 1 (hwPrompt false) Mcu.reset = some s1 ∧
      lcd_clear 1 (hwPrompt false) s1 = some s2 ∧
      busBytes s2.trace = [0x40, 0x0C, 0x08, 0x1C, 0x18, 0x40, 0x0C, 0x08, 0x1C, 0x18] ∧
      display_run (fun rs v d => if rs = false ∧ v = 0x01 then [] else v :: d)
        s2.trace [0x41] = [] ∧
      ∃ t1 t2, s1.trace = Mcu.reset.trace ++ t1 ∧ s2.trace = Mcu.reset.trace ++ (t1 ++ t2) ∧
        (∃ a, t1 = txn_trace a (lcd_cmd_arr 0x01) ++ [.delay 10]) ∧
        (∃ a, t2 = txn_trace a (lcd_cmd_arr 0x01) ++ [.delay 10]) ∧
        (frames_from none t1).map frame_value = [(false, 0x01)] ∧
        (frames_from none (t1 ++ t2)).map frame_value = [(false, 0x01), (false, 0x01)] ∧
        ∀ (D : Type) (exec : Bool → Nat → D → D) (blank : D),
          (∀ d, exec false 0x01 d = blank) →
          ∀ d, display_run exec (t1 ++ t2) d = display_run exec t1 d ∧
            display_run exec t1 d = blank :=
  ⟨(lcd_clear_twice (hwPrompt false) Mcu.reset).1 (responsive_hwPrompt false),
   _, _, rfl, rfl, rfl, rfl,
   (lcd_clear_twice (hwPrompt false) Mcu.reset).2 1 _ _ rfl rfl⟩

/-- C12: from every state (so for every value of the bus-collision, write-collision and
transfer-complete flags), `I2C_ready` returns on responsive hardware; when it returns,
both collision flags are clear, whether one of them was set on entry or neither was, the
transfer-complete flag is clear, the error signal is unchanged and no byte has been
written to the bus; and the collision flags on entry change nothing in what it returns,
so a collision is not reported. -/
theorem I2C_ready_frame (hw : Hw) (s : Mcu) :
    (Responsive hw → ∃ fuel s', I2C_ready fuel hw s = some s') ∧
    (∀ fuel s', I2C_ready fuel hw s = some s' →
      (s.BCLIF = true ∨ s.WCOL = true → s'.BCLIF = false ∧ s'.WCOL = false) ∧
      (s.BCLIF = false ∧ s.WCOL = false → s'.BCLIF = false ∧ s'.WCOL = false) ∧
      s'.SSPIF = false ∧
      s'.ERROR_L = s.ERROR_L ∧
      s'.trace = s.trace ++ [.ready] ∧
      busBytes s'.trace = busBytes s.trace) ∧
    (∀ fuel b w, I2C_ready fuel hw { s with BCLIF := b, WCOL := w } = I2C_ready fuel hw s) := by
  refine ⟨fun hr => I2C_ready_total hw hr s, ?_, ?_⟩
  · intro fuel s' h
    obtain ⟨ht, he, -, hi, hb, hw'⟩ := I2C_ready_some _ _ _ _ h
    refine ⟨fun _ => ⟨hb, hw'⟩, fun _ => ⟨hb, hw'⟩, hi, he, ht, ?_⟩
    rw [ht, busBytes_append]; simp [busBytes]
  · intro fuel b w
    simp only [I2C_ready, clear_collision_eq]

/-- Witness of C12: a bus collision, the transfer-complete flag and the error signal set on
entry. -/
theorem I2C_ready_frame_witness :
    (∃ fuel s', I2C_ready fuel (hwPrompt false)
      { Mcu.reset with BCLIF := true, SSPIF := true, ERROR_L := true } = some s') ∧
    ∃ s', I2C_ready 1 (hwPrompt false)
        { Mcu.reset with BCLIF := true, SSPIF := true, ERROR_L := true } = some s' ∧
      s'.BCLIF = false ∧ s'.WCOL = false ∧ s'.SSPIF = false ∧ s'.ERROR_L = true ∧
      busBytes s'.trace = [] :=
  ⟨(I2C_ready_frame (hwPrompt false)
      { Mcu.reset with BCLIF := true, SSPIF := true, ERROR_L := true }).1
     (responsive_hwPrompt false),
   _, rfl,
   (((I2C_ready_frame (hwPrompt false)
      { Mcu.reset with BCLIF := true, SSPIF := true, ERROR_L := true }).2.1 1 _ rfl).1
     (Or.inl rfl)).1,
   rfl, rfl, rfl, rfl⟩

/-- C13: `I2C_begin` sets the divisor `SSPADD` to 9, from every state; with the oscillator
frequency `_XTAL_FREQ` = 4,000,000 Hz the master-mode clock FOSC / (4 * (SSPADD + 1)) is
then 100,000 Hz, and the division is exact. -/
theorem I2C_begin_clock (s : Mcu) :
    _XTAL_FREQ = 4000000 ∧ (I2C_begin s).SSPADD = 9 ∧
    i2c_clock _XTAL_FREQ (I2C_begin s).SSPADD = 100000 ∧
    100000 * (4 * ((I2C_begin s).SSPADD + 1)) = _XTAL_FREQ := by
  have h9 : (I2C_begin s).SSPADD = 9 := rfl
  refine ⟨rfl, h9, ?_, ?_⟩
  · rw [h9]; unfold i2c_clock _XTAL_FREQ; norm_num
  · rw [h9]; unfold _XTAL_FREQ; norm_num

set_option maxRecDepth 100000 in
theorem frame_value_all : ∀ v, v < 256 →
    frame_value (lcd_cmd_arr v) = (false, v) ∧ frame_value (lcd_print_arr v) = (true, v) ∧
    (lcd_cmd_arr v).getD 0 0 &&& 0x01 = 0 ∧ (lcd_print_arr v).getD 0 0 &&& 0x01 = 1 := by
  decide

set_option maxRecDepth 100000 in
theorem lcd_put_cursor_col_inrange : ∀ c, c < 64 →
    lcd_put_cursor_col 0 c = 128 + c ∧ lcd_put_cursor_col 1 c = 192 + c := by
  decide

/-- C14: for all 8-bit values `v` and `w`, the frame built by `lcd_cmd(v)` and the frame
built by `lcd_print(v)` satisfy `(frame[0] & 0xF0) | (frame[2] >> 4) = v`; so different
values have different frames, under `lcd_cmd` and under `lcd_print`; `frame[0] & 0x01` is
the register select, 0 for `lcd_cmd` and 1 for `lcd_print`, so a command frame is never a
character frame. -/
theorem frame_lossless (v w : Nat) (hv : v < 256) (hw : w < 256) :
    ((lcd_cmd_arr v).getD 0 0 &&& 0xF0) ||| ((lcd_cmd_arr v).getD 2 0 >>> 4) = v ∧
    ((lcd_print_arr v).getD 0 0 &&& 0xF0) ||| ((lcd_print_arr v).getD 2 0 >>> 4) = v ∧
    (v ≠ w → lcd_cmd_arr v ≠ lcd_cmd_arr w) ∧
    (v ≠ w → lcd_print_arr v ≠ lcd_print_arr w) ∧
    (lcd_cmd_arr v).getD 0 0 &&& 0x01 = 0 ∧
    (lcd_print_arr v).getD 0 0 &&& 0x01 = 1 ∧
    lcd_cmd_arr v ≠ lcd_print_arr w := by
  obtain ⟨cv, pv, c0, p0⟩ := frame_value_all v hv
  obtain ⟨cw, pw, -, q0⟩ := frame_value_all w hw
  refine ⟨congrArg Prod.snd cv, congrArg Prod.snd pv, ?_, ?_, c0, p0, ?_⟩
  · intro hne heq
    apply hne
    have := congrArg Prod.snd (cv.symm.trans ((congrArg frame_value heq).trans cw))
    exact this
  · intro hne heq
    apply hne
    have := congrArg Prod.snd (pv.symm.trans ((congrArg frame_value heq).trans pw))
    exact this
  · intro heq
    have := congrArg Prod.fst (cv.symm.trans ((congrArg frame_value heq).trans pw))
    cases this

/-- Witness of C14 at `v = 0xA5` and `w = 0x5A`. -/
theorem frame_lossless_witness :
    (0xA5 < 256) ∧ (0x5A < 256) ∧ lcd_cmd_arr 0xA5 = [0xAC, 0xA8, 0x5C, 0x58] ∧
    (0xAC &&& 0xF0) ||| (0x5C >>> 4) = 0xA5 ∧
    ((lcd_print_arr 0xA5).getD 0 0 &&& 0xF0) ||| ((lcd_print_arr 0xA5).getD 2 0 >>> 4)
      = 0xA5 ∧
    lcd_cmd_arr 0xA5 ≠ lcd_cmd_arr 0x5A :=
  ⟨by decide, by decide, rfl, rfl,
   (frame_lossless 0xA5 0x5A (by decide) (by decide)).2.1,
   (frame_lossless 0xA5 0x5A (by decide) (by decide)).2.2.1 (by decide)⟩

/-- C15: for every address, when the start condition is detected as the start request
completes, `I2C_beginTransmission` returns 1 and clears the error signal whatever
`I2C_writeData` returns for the address byte: in a run where the peer acknowledges the
address byte and in a run where it does not, the result is 1 and the error signal is 0.
It returns on responsive hardware. -/
theorem I2C_beginTransmission_ignores_nack (address : Nat) (hwA hwN : Hw) (sA sN : Mcu)
    (fuel : Nat) (a1 a2 n1 n2 : Mcu)
    (hA1 : start_request fuel hwA sA = some a1) (hAS : a1.S = true)
    (hA2 : I2C_writeData fuel hwA address a1 = some (I2C_ACK, a2))
    (hN1 : start_request fuel hwN sN = some n1) (hNS : n1.S = true)
    (hN2 : I2C_writeData fuel hwN address n1 = some (I2C_NACK, n2)) :
    (∃ tA tN, I2C_beginTransmission fuel hwA address sA = some (1, tA) ∧
      I2C_beginTransmission fuel hwN address sN = some (1, tN) ∧
      tA.ERROR_L = false ∧ tN.ERROR_L = false ∧
      tA.ACKSTAT = false ∧ tN.ACKSTAT = true) ∧
    (Responsive hwA → ∃ k r t, I2C_beginTransmission k hwA address sA = some (r, t)) ∧
    (Responsive hwN → ∃ k r t, I2C_beginTransmission k hwN address sN = some (r, t)) := by
  refine ⟨?_, ?_, ?_⟩
  · refine ⟨{ a2 with ERROR_L := false }, { n2 with ERROR_L := false }, ?_, ?_, rfl, rfl,
      ?_, ?_⟩
    · simp only [I2C_beginTransmission, hA1, hAS, hA2, Bool.not_true, Bool.false_eq_true,
        if_false]
    · simp only [I2C_beginTransmission, hN1, hNS, hN2, Bool.not_true, Bool.false_eq_true,
        if_false]
    · have h := (I2C_writeData_some _ _ _ _ _ _ hA2).2.2.2.2
      cases hk : a2.ACKSTAT
      · rfl
      · rw [hk] at h; simp [I2C_ACK, I2C_NACK] at h
    · have h := (I2C_writeData_some _ _ _ _ _ _ hN2).2.2.2.2
      cases hk : n2.ACKSTAT
      · rw [hk] at h; simp [I2C_ACK, I2C_NACK] at h
      · rfl
  · intro hr
    obtain ⟨k, p, h⟩ := I2C_beginTransmission_total hwA hr address sA
    exact ⟨k, p.1, p.2, h⟩
  · intro hr
    obtain ⟨k, p, h⟩ := I2C_beginTransmission_total hwN hr address sN
    exact ⟨k, p.1, p.2, h⟩

/-- Witness of C15: the address 0x40 to a peer that acknowledges and to one that does
not. -/
theorem I2C_beginTransmission_ignores_nack_witness :
    (∃ a1 a2, start_request 1 (hwPrompt false) Mcu.reset = some a1 ∧ a1.S = true ∧
      I2C_writeData 1 (hwPrompt false) 0x40 a1 = some (I2C_ACK, a2)) ∧
    (∃ n1 n2, start_request 1 (hwPrompt true) Mcu.reset = some n1 ∧ n1.S = true ∧
      I2C_writeData 1 (hwPrompt true) 0x40 n1 = some (I2C_NACK, n2)) ∧
    ∃ tA tN, I2C_beginTransmission 1 (hwPrompt false) 0x40 Mcu.reset = some (1, tA) ∧
      I2C_beginTransmission 1 (hwPrompt true) 0x40 Mcu.reset = some (1, tN) ∧
      tA.ERROR_L = false ∧ tN.ERROR_L = false ∧
      tA.ACKSTAT = false ∧ tN.ACKSTAT = true :=
  ⟨⟨_, _, rfl, rfl, rfl⟩, ⟨_, _, rfl, rfl, rfl⟩,
   (I2C_beginTransmission_ignores_nack 0x40 (hwPrompt false) (hwPrompt true)
     Mcu.reset Mcu.reset 1 _ _ _ _ rfl rfl rfl rfl rfl rfl).1⟩

/-- C16: for rows `r`, `r'` in {0, 1} and columns `c`, `c'` below 0x40, the command byte
that `lcd_put_cursor` passes to `lcd_cmd` is the same for `(r, c)` and `(r', c')` only if
`r = r'` and `c = c'`; without the bound on the column this fails:
`lcd_put_cursor(0, 0x40)` and `lcd_put_cursor(1, 0)` both issue 0xC0. -/
theorem lcd_put_cursor_injective (r r' c c' : Nat) (hr : r < 2) (hr' : r' < 2)
    (hc : c < 0x40) (hc' : c' < 0x40) :
    (lcd_put_cursor_col r c = lcd_put_cursor_col r' c' → r = r' ∧ c = c') ∧
    (∀ fuel hw s, lcd_put_cursor fuel hw r c s = lcd_cmd fuel hw (lcd_put_cursor_col r c) s) ∧
    lcd_put_cursor_col 0 0x40 = 0xC0 ∧ lcd_put_cursor_col 1 0 = 0xC0 ∧
    (∀ fuel hw s, lcd_put_cursor fuel hw 0 0x40 s = lcd_put_cursor fuel hw 1 0 s) := by
  obtain ⟨c0, c1⟩ := lcd_put_cursor_col_inrange c hc
  obtain ⟨d0, d1⟩ := lcd_put_cursor_col_inrange c' hc'
  refine ⟨?_, fun _ _ _ => rfl, rfl, rfl, fun _ _ _ => rfl⟩
  intro h
  have hr2 : r = 0 ∨ r = 1 := by omega
  have hr2' : r' = 0 ∨ r' = 1 := by omega
  rcases hr2 with rfl | rfl <;> rcases hr2' with rfl | rfl
  · rw [c0, d0] at h; exact ⟨rfl, by omega⟩
  · rw [c0, d1] at h; omega
  · rw [c1, d0] at h; omega
  · rw [c1, d1] at h; exact ⟨rfl, by omega⟩

/-- Witness of C16: the positions (0, 0x3F) and (1, 0x3F). -/
theorem lcd_put_cursor_injective_witness :
    (0 < 2) ∧ (1 < 2) ∧ (0x3F < 0x40) ∧
    lcd_put_cursor_col 0 0x3F = 0xBF ∧ lcd_put_cursor_col 1 0x3F = 0xFF ∧
    (lcd_put_cursor_col 0 0x3F = lcd_put_cursor_col 1 0x3F → 0 = 1 ∧ 0x3F = 0x3F) :=
  ⟨by decide, by decide, by decide, rfl, rfl,
   (lcd_put_cursor_injective 0 1 0x3F 0x3F (by decide) (by decide) (by decide)
     (by decide)).1⟩

/-- C17: for every row other than 0 and 1 and every `col`, `lcd_put_cursor(row, col)`
leaves `col` as it is and is exactly `lcd_cmd(col)`: it returns on responsive hardware and
adds exactly one transaction to the trace, carrying the command frame of `col`, whose
value is `col` on register select 0 when `col` is an 8-bit value. -/
theorem lcd_put_cursor_other_row (hw : Hw) (row col : Nat) (h0 : row ≠ 0) (h1 : row ≠ 1)
    (s : Mcu) :
    lcd_put_cursor_col row col = col ∧
    (∀ fuel, lcd_put_cursor fuel hw row col s = lcd_cmd fuel hw col s) ∧
    (Responsive hw → ∃ fuel s', lcd_put_cursor fuel hw row col s = some s') ∧
    (∀ fuel s', lcd_put_cursor fuel hw row col s = some s' →
      ∃ a, s'.trace = s.trace ++ txn_trace a (lcd_cmd_arr col)) ∧
    (col < 256 → frame_value (lcd_cmd_arr col) = (false, col)) := by
  have hcol : lcd_put_cursor_col row col = col := by
    match row, h0, h1 with
    | 0, h0, _ => exact absurd rfl h0
    | 1, _, h1 => exact absurd rfl h1
    | n + 2, _, _ => rfl
  have e : ∀ fuel, lcd_put_cursor fuel hw row col s = lcd_cmd fuel hw col s := by
    intro fuel; simp only [lcd_put_cursor, hcol]
  refine ⟨hcol, e, ?_, ?_, fun hc => (frame_value_all col hc).1⟩
  · intro hr
    obtain ⟨n, s', h⟩ := send_to_display_total hw hr (lcd_cmd_arr col) s
    exact ⟨n, s', by rw [e]; exact h⟩
  · intro fuel s' h
    rw [e] at h
    exact send_to_display_trace _ _ _ _ _ h

/-- Witness of C17: row 2, column 5, on hardware that answers at once. -/
theorem lcd_put_cursor_other_row_witness :
    (2 ≠ 0) ∧ (2 ≠ 1) ∧ lcd_put_cursor_col 2 5 = 5 ∧
    (lcd_put_cursor 1 (hwPrompt false) 2 5 Mcu.reset).map Mcu.trace =
      some (txn_trace true [0x0C, 0x08, 0x5C, 0x58]) :=
  ⟨by decide, by decide,
   (lcd_put_cursor_other_row (hwPrompt false) 2 5 (by decide) (by decide) Mcu.reset).1,
   rfl⟩

end LcdI2c
